import Mathlib

/-!
# Verification of `function/protobuf.py` (accessor layer)

A shallow embedding of the accessor classes in `src/function/protobuf.py`
(`Message`, `MapMessage`, `RepeatedMessage`, `Values`) together with the
relevant behaviour of the `google.protobuf` backing containers
(`Struct`, `ListValue`, `Value`, message objects, map fields and repeated
fields) that the Python code manipulates.

Modelling conventions:
* Python exceptions are `Except Err`; each `Err` constructor names a raise
  site (either a `raise` statement in `protobuf.py` or a well-known
  exception of the protobuf runtime / the Python interpreter).
* An accessor's `_parent` and `_key` attributes are used by the code only
  in the expression `self._parent._create_child(self._key, ...)`.  They are
  therefore modelled as an explicit "materialization callback" argument to
  the operations that may need to materialize (already applied to the
  accessor's `_key`), instead of fields of the accessor state.
* Operations return `Except Err state`; on the error paths relied upon by
  the theorems below, the Python code raises before mutating anything, so
  returning no state on error is faithful there.  (A few error paths in
  CPython would leave partial mutations behind; no theorem below depends
  on the post-state of a failed operation except where noted.)
-/

namespace FnProtobuf

/-- A Python key: the code distinguishes `str` keys from `int` keys with
`isinstance` checks (e.g. `protobuf.py` lines 425/434). -/
inductive PyKey where
  | s (k : String)
  | i (n : Nat)
deriving DecidableEq, Repr

/-- Exceptions.  Each constructor corresponds to a raise site:
* `readOnly` — `raise ValueError(f"... is read only")` (the spec's
  `ReadOnlyViolation`), e.g. lines 135-136, 607-608;
* `attributeError n` — Python `AttributeError` with attribute name `n`
  (the spec's `UnknownFieldError` when raised on a schema lookup);
* `invalidKeyMap` — `ValueError('Invalid key, must be a str for maps')`
  (the spec's `TypeMismatch` on a text key), lines 428, 479, 537, 612, 670;
* `invalidKeyList` — `ValueError('Invalid key, must be an int for lists')`
  (the spec's `TypeMismatch` on an integer key), lines 437, 483, 545, 620, 680;
* `unexpectedKeyType` — `ValueError('Unexpected key type')`;
* `unexpectedType` — `ValueError(f"Unexpected type: ...")`, line 562;
* `unexpectedValueType` — `ValueError('Unexpected type')`, line 657
  (the spec's `UnsupportedValueType`);
* `kwargsOnLists` / `argsOnMaps` — lines 570/573 and 583/586
  (the spec's `AmbiguousReinitialize` family);
* `typeError m` — a `TypeError` raised by the CPython runtime (e.g.
  `getattr(obj, 0)` raises `TypeError: attribute name must be string`);
* `valueError m` — a `ValueError` raised by the protobuf runtime;
* `recursionError` — CPython's `RecursionError` (unbounded recursion). -/
inductive Err where
  | readOnly
  | attributeError (name : String)
  | invalidKeyMap
  | invalidKeyList
  | unexpectedKeyType
  | unexpectedType
  | unexpectedValueType
  | kwargsOnLists
  | argsOnMaps
  | typeError (msg : String)
  | valueError (msg : String)
  | recursionError
deriving DecidableEq, Repr

/-- A `google.protobuf.struct_pb2.Value`: a tagged union whose `kind`
oneof may also be unset (`WhichOneof('kind') is None`), which is distinct
from the `null_value` tag.  Numbers are modelled as integers (the claims
never rely on non-integral doubles). -/
inductive PValue where
  | unset
  | nullV
  | boolV (b : Bool)
  | numV (n : Int)
  | strV (s : String)
  | structV (fs : List (String × PValue))
  | listV (vs : List PValue)

/-- The backing store a `Values` accessor can hold in `_values`: a
`Struct` (insertion-ordered fields) or a `ListValue`. -/
inductive Container where
  | struct (fs : List (String × PValue))
  | list (vs : List PValue)

/-- `Values.Type` (lines 406-409). -/
inductive VType where
  | unknown
  | map
  | list
deriving DecidableEq, Repr

/-- Association-list lookup keyed by decidable equality (Python `dict`
lookup; keys are unique in a `dict`). -/
def alookup {κ α : Type} [DecidableEq κ] : List (κ × α) → κ → Option α
  | [], _ => none
  | (k', v) :: rest, k => if k' = k then some v else alookup rest k

/-- Python `del d[k]` on a `dict`: removes the (unique) binding of `k`. -/
def aerase {κ α : Type} [DecidableEq κ] : List (κ × α) → κ → List (κ × α)
  | [], _ => []
  | (k', v) :: rest, k => if k' = k then rest else (k', v) :: aerase rest k

/-- Python `d[k] = v` on a `dict` / protobuf `Struct`: replace in place if
the key is present, else append (insertion order preserved). -/
def aupdate {κ α : Type} [DecidableEq κ] : List (κ × α) → κ → α → List (κ × α)
  | [], k, v => [(k, v)]
  | (k', v') :: rest, k, v =>
      if k' = k then (k, v) :: rest else (k', v') :: aupdate rest k v

mutual
/-- The state of a `Values` accessor (lines 411-417): `_values`, `_type`,
`_read_only` and `_cache`.  (`_parent`/`_key` are modelled as callback
arguments of the mutating operations, see the file header.) -/
inductive VState where
  | mk (values : Option Container) (type : VType) (readOnly : Bool)
       (cache : List (PyKey × VRet))

/-- A value returned by `Values.__getitem__` and stored in its `_cache`:
either a plain Python scalar or a child `Values` accessor. -/
inductive VRet where
  | pyNone
  | pyBool (b : Bool)
  | pyNum (n : Int)
  | pyStr (s : String)
  | child (v : VState)
end

def VState.values : VState → Option Container
  | .mk v _ _ _ => v

def VState.type : VState → VType
  | .mk _ t _ _ => t

def VState.readOnly : VState → Bool
  | .mk _ _ ro _ => ro

def VState.cache : VState → List (PyKey × VRet)
  | .mk _ _ _ c => c

/-- Length of a backing container (`len(self._values)`): a `Struct`
reports its field count, a `ListValue` its element count. -/
def Container.len : Container → Nat
  | .struct fs => fs.length
  | .list vs => vs.length

/-- `Struct.Clear()` / `ListValue.Clear()`: empties the container in
place, keeping its shape. -/
def Container.clear : Container → Container
  | .struct _ => .struct []
  | .list _ => .list []

/-- Dispatch on `struct_value.WhichOneof('kind')`, lines 445-464 of
`Values.__getitem__`: `None` (either no stored `Value`, or a `Value` with
an unset kind) yields a fresh `Unknown` child; `struct_value`/`list_value`
yield typed children; scalar kinds yield the plain scalar; `null_value`
yields Python `None`. -/
def svToVRet (ro : Bool) (sv : Option PValue) : VRet :=
  match sv with
  | none => .child (.mk none .unknown ro [])
  | some .unset => .child (.mk none .unknown ro [])
  | some (.structV fs) => .child (.mk (some (.struct fs)) .map ro [])
  | some (.listV vs) => .child (.mk (some (.list vs)) .list ro [])
  | some (.strV s) => .pyStr s
  | some (.numV n) => .pyNum n
  | some (.boolV b) => .pyBool b
  | some .nullV => .pyNone

/-- `Values.__getitem__` (lines 422-466).  A cache hit returns the cached
object unchanged (lines 423-424).  Otherwise the key kind commits the
typing (`UNKNOWN` becomes `MAP` on a `str` key / `LIST` on an `int` key;
a committed conflicting typing raises, lines 425-438), the stored
`Value` is looked up (absent values and absent backing give `None`,
lines 430-433/439-442), the result is built by `svToVRet` and cached
(line 465).  The shape mismatches (`MAP` typing over a `ListValue`
backing or vice versa) cannot arise from the constructors the code uses;
they are modelled as the exceptions CPython would raise on the
mismatched container API (`in` over a message is a `TypeError`,
`.values` on a `Struct` is an `AttributeError`). -/
def vGet (s : VState) (k : PyKey) : Except Err (VRet × VState) :=
  match alookup s.cache k with
  | some v => .ok (v, s)
  | none =>
    match k with
    | .s kk => do
      if s.type = .list then throw .invalidKeyMap
      let sv ← (match s.values with
        | none => Except.ok none
        | some (.struct fs) => Except.ok (alookup fs kk)
        | some (.list _) => Except.error (.typeError "argument of type is not iterable"))
      let r := svToVRet s.readOnly sv
      .ok (r, .mk s.values .map s.readOnly (s.cache ++ [(k, r)]))
    | .i n => do
      if s.type = .map then throw .invalidKeyList
      let sv ← (match s.values with
        | none => Except.ok none
        | some (.list vs) => Except.ok vs[n]?
        | some (.struct fs) =>
            if n < fs.length then Except.error (.attributeError "values")
            else Except.ok none)
      let r := svToVRet s.readOnly sv
      .ok (r, .mk s.values .list s.readOnly (s.cache ++ [(k, r)]))

/-- `Values.__bool__` (lines 468-469). -/
def vBool (s : VState) : Bool :=
  match s.values with
  | none => false
  | some c => 0 < c.len

/-- `Values.__len__` (lines 471-472). -/
def vLen (s : VState) : Nat :=
  match s.values with
  | none => 0
  | some c => c.len

/-- `Values.__contains__` (lines 474-486): an absent backing returns
`False` immediately (before any typing check, so nothing is committed and
nothing can raise); a present backing checks the committed typing against
the key kind (raising on mismatch, with no `UNKNOWN` escape hatch here)
and then tests live membership.  It performs no mutation at all, which
the Lean type (no state returned) makes explicit. -/
def vContains (s : VState) (k : PyKey) : Except Err Bool :=
  match s.values with
  | none => .ok false
  | some c =>
    match k with
    | .s kk =>
      if s.type ≠ .map then .error .invalidKeyMap
      else match c with
        | .struct fs => .ok (alookup fs kk).isSome
        | .list _ => .error (.typeError "argument of type incompatible")
    | .i n =>
      if s.type ≠ .list then .error .invalidKeyList
      else .ok (n < c.len)

/-- A Python value passed to `Values.__setitem__` / `Values.__call__`.
`int` and `float` are merged into one numeric case (both hit the
`isinstance(value, (int, float))` arm); `other` stands for any object of
a type not handled by the conversion cascade. -/
inductive PyVal where
  | none
  | bool (b : Bool)
  | int (n : Int)
  | str (s : String)
  | dict (fs : List (String × PyVal))
  | list (vs : List PyVal)
  | values (v : VState)
  | other

mutual
/-- The conversion `google.protobuf.struct_pb2.Struct.update` /
`ListValue.extend` apply recursively to nested native values: `None`,
`bool`, numbers, `str`, `dict`, `list` convert; anything else (including
an accessor object buried inside a `dict`) raises `ValueError`. -/
def pyToP : PyVal → Except Err PValue
  | .none => .ok .nullV
  | .bool b => .ok (.boolV b)
  | .int n => .ok (.numV n)
  | .str s => .ok (.strV s)
  | .dict fs => do .ok (.structV (← pyToPFields fs))
  | .list vs => do .ok (.listV (← pyToPList vs))
  | .values _ => .error (.valueError "Unexpected type")
  | .other => .error (.valueError "Unexpected type")

def pyToPFields : List (String × PyVal) → Except Err (List (String × PValue))
  | [] => .ok []
  | (k, v) :: rest => do .ok ((k, ← pyToP v) :: (← pyToPFields rest))

def pyToPList : List PyVal → Except Err (List PValue)
  | [] => .ok []
  | v :: rest => do .ok ((← pyToP v) :: (← pyToPList rest))
end

/-- The classification cascade of `Values.__setitem__` (lines 629-657):
explicit `None` becomes the `null_value` tag; `bool` is checked before
the numeric case; then `str`, numeric, `dict` (deep-converted into a
fresh `struct_value`), `list`/`tuple` (deep-converted into a fresh
`list_value`); a nested `Values` accessor copies its backing according
to its committed typing (an `UNKNOWN` one becomes `null_value`); any
other shape raises `ValueError('Unexpected type')` (line 657). -/
def classifySet : PyVal → Except Err PValue
  | .none => .ok .nullV
  | .bool b => .ok (.boolV b)
  | .str s => .ok (.strV s)
  | .int n => .ok (.numV n)
  | .dict fs => do .ok (.structV (← pyToPFields fs))
  | .list vs => do .ok (.listV (← pyToPList vs))
  | .values vs =>
    match vs.type with
    | .map => .ok (.structV (match vs.values with
        | some (.struct fs) => fs
        | _ => []))
    | .list => .ok (.listV (match vs.values with
        | some (.list l) => l
        | _ => []))
    | .unknown => .ok .nullV
  | .other => .error .unexpectedValueType

/-- `while key >= len(self._values.values): self._values.values.add()`
(lines 624-625 and 549-550): grow the backing list with fresh `Value()`
elements (kind unset) until index `n` exists. -/
def growTo (vs : List PValue) (n : Nat) : List PValue :=
  vs ++ List.replicate (n + 1 - vs.length) .unset

/-- `Values.__setitem__` (lines 606-659): read-only check first; the key
kind commits the typing exactly as in `__getitem__`; an absent backing
is materialized through the parent (`self._parent._create_child(self._key,
self._type)`, modelled by the callback `pcc` applied to the committed
typing); the slot is created (`fields[key]` auto-inserts, an `int` key
grows the list); the classified value is stored; finally the cache entry
for that key (and only that key) is dropped (lines 658-659).
If the classification raises, CPython leaves the auto-inserted slot
behind; no theorem below depends on the post-state of that failure. -/
def vSet (pcc : VType → Except Err Container) (s : VState) (k : PyKey)
    (v : PyVal) : Except Err VState :=
  if s.readOnly then .error .readOnly else
  match k with
  | .s kk => do
    if s.type = .list then throw .invalidKeyMap
    let vals ← (match s.values with
      | some c => Except.ok c
      | none => pcc .map)
    let fs ← (match vals with
      | .struct fs => Except.ok fs
      | .list _ => Except.error (.attributeError "fields"))
    let pv ← classifySet v
    .ok (.mk (some (.struct (aupdate fs kk pv))) .map s.readOnly
          (aerase s.cache k))
  | .i n => do
    if s.type = .map then throw .invalidKeyList
    let vals ← (match s.values with
      | some c => Except.ok c
      | none => pcc .list)
    let vs ← (match vals with
      | .list vs => Except.ok vs
      | .struct _ => Except.error (.attributeError "values"))
    let pv ← classifySet v
    .ok (.mk (some (.list ((growTo vs n).set n pv))) .list s.readOnly
          (aerase s.cache k))

/-- `Values.__delitem__` (lines 664-688): read-only check first; the key
kind commits the typing; with an absent backing nothing else happens (the
cache is untouched too, the guard on line 672/682 covers both the data
and the cache deletion); a `str` key removes the map entry entirely
(lines 672-674); an `int` key in range calls `Clear()` on the stored
`Value` in place (line 684) — the slot stays, its kind becomes unset —
and an out-of-range `int` key touches nothing; in both container cases
the cache entry for the key is dropped. -/
def vDel (s : VState) (k : PyKey) : Except Err VState :=
  if s.readOnly then .error .readOnly else
  match k with
  | .s kk => do
    if s.type = .list then throw .invalidKeyMap
    match s.values with
    | none => .ok (.mk none .map s.readOnly s.cache)
    | some (.struct fs) =>
        .ok (.mk (some (.struct (aerase fs kk))) .map s.readOnly
              (aerase s.cache k))
    | some (.list _) => .error (.typeError "argument of type is not iterable")
  | .i n => do
    if s.type = .map then throw .invalidKeyList
    match s.values with
    | none => .ok (.mk none .list s.readOnly s.cache)
    | some (.list vs) =>
        .ok (.mk (some (.list (if n < vs.length then vs.set n .unset else vs)))
              .list s.readOnly (aerase s.cache k))
    | some (.struct fs) =>
        if n < fs.length then .error (.attributeError "values")
        else .ok (.mk (some (.struct fs)) .list s.readOnly (aerase s.cache k))

/-- `Values._create_child` (lines 531-562): the lazy-materialization
entry point a child accessor calls on its parent.  Read-only check
first; the key kind commits the typing and materializes this node
through its own parent if needed; the slot for `key` is created; then
the requested child container is returned — reusing the stored
`struct_value`/`list_value` when the slot already holds one of the
requested kind, otherwise clearing the slot to a fresh empty container
(lines 554-561).  A request with `UNKNOWN` typing falls through to
`raise ValueError(f"Unexpected type: ...")` (line 562).  (In CPython the
returned container aliases the slot; the theorems below use only the
returned value and the error paths, never the aliasing.) -/
def vCreateChild (pcc : VType → Except Err Container) (s : VState)
    (k : PyKey) (ty : VType) : Except Err (Container × VState) :=
  if s.readOnly then .error .readOnly else
  match k with
  | .s kk => do
    if s.type = .list then throw .invalidKeyMap
    let vals ← (match s.values with
      | some c => Except.ok c
      | none => pcc .map)
    let fs ← (match vals with
      | .struct fs => Except.ok fs
      | .list _ => Except.error (.attributeError "fields"))
    let fs1 := if (alookup fs kk).isSome then fs else aupdate fs kk .unset
    match ty with
    | .map =>
      match (alookup fs1 kk).getD .unset with
      | .structV gs =>
          .ok (.struct gs, .mk (some (.struct fs1)) .map s.readOnly s.cache)
      | _ =>
          .ok (.struct [], .mk (some (.struct (aupdate fs1 kk (.structV []))))
                .map s.readOnly s.cache)
    | .list =>
      match (alookup fs1 kk).getD .unset with
      | .listV gs =>
          .ok (.list gs, .mk (some (.struct fs1)) .map s.readOnly s.cache)
      | _ =>
          .ok (.list [], .mk (some (.struct (aupdate fs1 kk (.listV []))))
                .map s.readOnly s.cache)
    | .unknown => .error .unexpectedType
  | .i n => do
    if s.type = .map then throw .invalidKeyList
    let vals ← (match s.values with
      | some c => Except.ok c
      | none => pcc .list)
    let vs ← (match vals with
      | .list vs => Except.ok vs
      | .struct _ => Except.error (.attributeError "values"))
    let vs1 := growTo vs n
    match ty with
    | .map =>
      match vs1.getD n .unset with
      | .structV gs =>
          .ok (.struct gs, .mk (some (.list vs1)) .list s.readOnly s.cache)
      | _ =>
          .ok (.struct [], .mk (some (.list (vs1.set n (.structV []))))
                .list s.readOnly s.cache)
    | .list =>
      match vs1.getD n .unset with
      | .listV gs =>
          .ok (.list gs, .mk (some (.list vs1)) .list s.readOnly s.cache)
      | _ =>
          .ok (.list [], .mk (some (.list (vs1.set n (.listV []))))
                .list s.readOnly s.cache)
    | .unknown => .error .unexpectedType

/-- `Values.__call__` (lines 564-601): read-only check first.  With
keyword arguments, the typing must be (or become) `MAP` (a `LIST`
commitment raises, line 570), positional arguments are rejected
(line 573), the backing is materialized if absent, cleared, the cache
reset, and each keyword applied through `__setitem__` in order.  With
positional arguments the symmetric `LIST` branch runs.  With neither,
lines 594-600 run: the inner guard is inverted relative to every other
branch, so a `LIST` commitment is silently retyped to `MAP` while an
`UNKNOWN` one stays `UNKNOWN` (despite the comment `# Assume a map is
wanted`), and the materialization call passes that possibly-`UNKNOWN`
typing to the parent. -/
def vCall (pcc : VType → Except Err Container) (s : VState)
    (args : List PyVal) (kwargs : List (String × PyVal)) : Except Err VState :=
  if s.readOnly then .error .readOnly else
  match kwargs with
  | _ :: _ => do
    if s.type = .list then throw .kwargsOnLists
    if !args.isEmpty then throw .argsOnMaps
    let vals ← (match s.values with
      | some c => Except.ok c
      | none => pcc .map)
    let s1 : VState := .mk (some vals.clear) .map s.readOnly []
    kwargs.foldlM (fun st kv => vSet pcc st (.s kv.1) kv.2) s1
  | [] =>
    match args with
    | _ :: _ => do
      if s.type = .map then throw .argsOnMaps
      let vals ← (match s.values with
        | some c => Except.ok c
        | none => pcc .list)
      let s1 : VState := .mk (some vals.clear) .list s.readOnly []
      args.enum.foldlM (fun st p => vSet pcc st (.i p.1) p.2) s1
    | [] => do
      let ty := match s.type with
        | .list => VType.map
        | t => t
      let vals ← (match s.values with
        | some c => Except.ok c
        | none => pcc ty)
      .ok (.mk (some vals.clear) ty s.readOnly [])

/-! ## Schema descriptors and protobuf message backing

The repository's schemas (`crossplane.function.proto.v1.run_function_pb2`)
use string scalars, singular message fields, repeated message fields,
map fields whose values are plain messages (e.g. `State.resources :
map<string, Resource>`), and the well-known `Struct`/`ListValue` types.
The descriptor model below mirrors exactly the properties
`Message.__getitem__` dispatches on (lines 59-70): `field.type`,
`field.message_type.name`, `field.label` and `map_entry`.  proto3
scalar fields report `has_default_value = False`, so the default-value
fallback on lines 57-58 never fires and is not modelled. -/

mutual
inductive Descr where
  | mk (fullName : String) (fields : List (String × FieldTy))

inductive FieldTy where
  | scalarStr
  | structTy
  | listValueTy
  | mapTy (valueDescr : Descr)
  | repTy (d : Descr)
  | msgTy (d : Descr)
end

def Descr.fullName : Descr → String
  | .mk n _ => n

def Descr.fields : Descr → List (String × FieldTy)
  | .mk _ fs => fs

mutual
/-- A protobuf message object.  A message always carries every declared
field (CPython's `getattr` on a declared field never returns `None`:
an unset singular message field reads as an empty stub, an empty
repeated/map field as an empty container), so field presence is not
tracked separately; scenario messages list all their declared fields. -/
inductive PMsg where
  | mk (fields : List (String × PFieldVal))

inductive PFieldVal where
  | strF (s : String)
  | msgF (m : PMsg)
  | repF (ms : List PMsg)
  | mapF (es : List (String × PMsg))
  | structF (fs : List (String × PValue))
  | listF (vs : List PValue)
end

def PMsg.fields : PMsg → List (String × PFieldVal)
  | .mk fs => fs

/-- What `getattr(message, key)` / `_create_child` can hand out: a field's
backing object. -/
inductive Backing where
  | msg (m : PMsg)
  | rep (ms : List PMsg)
  | mapb (es : List (String × PMsg))
  | structb (fs : List (String × PValue))
  | listb (vs : List PValue)
  | scalar (s : String)

def pyKeyStr : PyKey → String
  | .s k => k
  | .i n => toString n

/-- `getattr(self._message, key)`: CPython requires the attribute name to
be a string (`getattr(obj, 0)` raises `TypeError: attribute name must be
string`); an undeclared name raises `AttributeError`. -/
def pmsgGetAttr (m : PMsg) (k : PyKey) : Except Err Backing :=
  match k with
  | .i _ => .error (.typeError "attribute name must be string")
  | .s name =>
    match alookup m.fields name with
    | none => .error (.attributeError name)
    | some (.strF s) => .ok (.scalar s)
    | some (.msgF sub) => .ok (.msg sub)
    | some (.repF ms) => .ok (.rep ms)
    | some (.mapF es) => .ok (.mapb es)
    | some (.structF fs) => .ok (.structb fs)
    | some (.listF vs) => .ok (.listb vs)

mutual
/-- `Message.Clear()`: every field reverts to its default. -/
def pmsgClear : PMsg → PMsg
  | .mk fs => .mk (pfieldsClear fs)

def pfieldsClear : List (String × PFieldVal) → List (String × PFieldVal)
  | [] => []
  | (n, v) :: rest => (n, pfieldClear v) :: pfieldsClear rest

def pfieldClear : PFieldVal → PFieldVal
  | .strF _ => .strF ""
  | .msgF m => .msgF (pmsgClear m)
  | .repF _ => .repF []
  | .mapF _ => .mapF []
  | .structF _ => .structF []
  | .listF _ => .listF []
end

mutual
/-- The default (empty) message instance for a descriptor, as produced by
`container.add()` or by auto-insertion into a message-valued map. -/
def defaultPMsg : Descr → PMsg
  | .mk _ fs => .mk (defaultFields fs)

def defaultFields : List (String × FieldTy) → List (String × PFieldVal)
  | [] => []
  | (n, t) :: rest => (n, defaultFV t) :: defaultFields rest

def defaultFV : FieldTy → PFieldVal
  | .scalarStr => .strF ""
  | .structTy => .structF []
  | .listValueTy => .listF []
  | .mapTy _ => .mapF []
  | .repTy _ => .repF []
  | .msgTy d => .msgF (defaultPMsg d)
end

/-! ## Accessor states -/

mutual
/-- `Message` accessor state (lines 36-42): `_descriptor`, `_message`,
`_read_only`, `_cache` (`_parent`/`_key` are modelled as the
materialization callback of the mutating operations). -/
inductive MsgState where
  | mk (descr : Descr) (message : Option PMsg) (readOnly : Bool)
       (cache : List (PyKey × MRet))

/-- `MapMessage` accessor state (lines 166-172).  Note that `__init__`
stores `_field = descriptor.fields_by_name['value']` and never stores
`_descriptor` itself; in this model the map's value type is a plain
message descriptor (`valueDescr`), the only shape the repository's
schemas use, so the `_field` dispatch of `__getitem__` (lines 186-197)
always takes the `Message` arm (line 197). -/
inductive MapState where
  | mk (valueDescr : Descr) (messages : Option (List (String × PMsg)))
       (readOnly : Bool) (cache : List (PyKey × MRet))

/-- `RepeatedMessage` accessor state (lines 289-295). -/
inductive RepState where
  | mk (descr : Descr) (messages : Option (List PMsg)) (readOnly : Bool)
       (cache : List (PyKey × MRet))

/-- A value returned by `Message.__getitem__` / `MapMessage.__getitem__` /
`RepeatedMessage.__getitem__` and stored in their caches. -/
inductive MRet where
  | scalar (s : String)
  | pyNone
  | msgA (c : MsgState)
  | mapA (c : MapState)
  | repA (c : RepState)
  | valA (v : VState)
end

def MsgState.descr : MsgState → Descr
  | .mk d _ _ _ => d

def MsgState.message : MsgState → Option PMsg
  | .mk _ m _ _ => m

def MsgState.readOnly : MsgState → Bool
  | .mk _ _ ro _ => ro

def MsgState.cache : MsgState → List (PyKey × MRet)
  | .mk _ _ _ c => c

def MapState.valueDescr : MapState → Descr
  | .mk d _ _ _ => d

def MapState.messages : MapState → Option (List (String × PMsg))
  | .mk _ m _ _ => m

def MapState.readOnly : MapState → Bool
  | .mk _ _ ro _ => ro

def MapState.cache : MapState → List (PyKey × MRet)
  | .mk _ _ _ c => c

def RepState.descr : RepState → Descr
  | .mk d _ _ _ => d

def RepState.messages : RepState → Option (List PMsg)
  | .mk _ m _ _ => m

def RepState.readOnly : RepState → Bool
  | .mk _ _ ro _ => ro

def RepState.cache : RepState → List (PyKey × MRet)
  | .mk _ _ _ c => c

/-! ## `Message` accessor methods -/

/-- The child-construction dispatch of `Message.__getitem__`
(lines 59-70), building the result from the field's declared type and
the backing handed out by `getattr` (`none` when `self._message` is
`None`).  A backing inconsistent with the descriptor cannot arise from
well-formed protobuf objects and is mapped to a `TypeError`. -/
def mkChild (ro : Bool) (fty : FieldTy) (value : Option Backing) :
    Except Err MRet :=
  match fty, value with
  | .scalarStr, none => .ok .pyNone
  | .scalarStr, some (.scalar str) => .ok (.scalar str)
  | .structTy, none => .ok (.valA (.mk none .map ro []))
  | .structTy, some (.structb fs) => .ok (.valA (.mk (some (.struct fs)) .map ro []))
  | .listValueTy, none => .ok (.valA (.mk none .list ro []))
  | .listValueTy, some (.listb vs) => .ok (.valA (.mk (some (.list vs)) .list ro []))
  | .mapTy d, none => .ok (.mapA (.mk d none ro []))
  | .mapTy d, some (.mapb es) => .ok (.mapA (.mk d (some es) ro []))
  | .repTy d, none => .ok (.repA (.mk d none ro []))
  | .repTy d, some (.rep ms) => .ok (.repA (.mk d (some ms) ro []))
  | .msgTy d, none => .ok (.msgA (.mk d none ro []))
  | .msgTy d, some (.msg m) => .ok (.msgA (.mk d (some m) ro []))
  | _, _ => .error (.typeError "backing inconsistent with descriptor")

/-- `Message.__getitem__` (lines 47-72): cache hit returns the cached
object; an unknown field name (or an `int` key, which no field-name
`dict` contains) raises `AttributeError`; otherwise the child is built
from the schema type and the live backing and cached (line 71).
Children inherit `self._read_only` (lines 61-70). -/
def msgGet (s : MsgState) (k : PyKey) : Except Err (MRet × MsgState) :=
  match alookup s.cache k with
  | some v => .ok (v, s)
  | none => do
    let fty ← (match k with
      | .i n => Except.error (.attributeError (toString n))
      | .s name =>
        match alookup s.descr.fields name with
        | none => Except.error (.attributeError name)
        | some fty => Except.ok fty)
    let value ← (match s.message with
      | none => Except.ok Option.none
      | some m => (pmsgGetAttr m k).map some)
    let r ← mkChild s.readOnly fty value
    .ok (r, .mk s.descr s.message s.readOnly (s.cache ++ [(k, r)]))

/-- `Message.__bool__` (lines 74-75): `self._message != None`. -/
def msgBool (s : MsgState) : Bool :=
  s.message.isSome

/-- `Message.__len__` (lines 77-78): the descriptor's field count. -/
def msgLen (s : MsgState) : Nat :=
  s.descr.fields.length

/-- `Message.__contains__` (lines 80-81): membership in
`self._descriptor.fields_by_name` — a schema test, independent of
whether `self._message` exists.  An `int` key is simply not a key of
that `dict`. -/
def msgContains (s : MsgState) (k : PyKey) : Bool :=
  match k with
  | .s name => (alookup s.descr.fields name).isSome
  | .i _ => false

/-- `Message._create_child` (lines 113-118): read-only check, lazy
materialization of `self._message` through the parent (the `mat`
callback models `self._parent._create_child(self._key)`), then
`getattr(self._message, key)` — which raises `TypeError` when `key` is
an `int` (as happens for the children handed out by
`RepeatedMessage.__getitem__`). -/
def msgCreateChild (mat : Except Err Backing) (s : MsgState) (k : PyKey) :
    Except Err (Backing × MsgState) :=
  if s.readOnly then .error .readOnly else
  match s.message with
  | some m => (pmsgGetAttr m k).map (fun b => (b, s))
  | none => do
    let b ← mat
    let m ← (match b with
      | .msg m => Except.ok m
      | _ => Except.error (.typeError "inconsistent parent container"))
    (pmsgGetAttr m k).map (fun bb => (bb, .mk s.descr (some m) s.readOnly s.cache))

/-- A Python value passed to `Message.__setitem__`.  Lines 141-146
coerce accessor arguments to their raw backing before `setattr`. -/
inductive MVal where
  | str (s : String)
  | msgAcc (a : MsgState)
  | other

/-- `Message.__setitem__` (lines 134-149): read-only check first, then
the schema check (`raise AttributeError` for an unknown name, line 138),
lazy materialization, accessor-to-raw coercion, and
`setattr(self._message, key, value)`.  protobuf `setattr` succeeds only
on scalar fields with a value of the right type; assignment to a
composite field raises `AttributeError('Assignment not allowed to
composite field ...')`.  On success the cache entry for exactly that key
is dropped (lines 148-149). -/
def msgSet (mat : Except Err Backing) (s : MsgState) (k : PyKey) (v : MVal) :
    Except Err MsgState :=
  if s.readOnly then .error .readOnly else
  match k with
  | .i n => .error (.attributeError (toString n))
  | .s name =>
    match alookup s.descr.fields name with
    | none => .error (.attributeError name)
    | some fty => do
      let m ← (match s.message with
        | some m => Except.ok m
        | none => do
          let b ← mat
          match b with
          | .msg m => Except.ok m
          | _ => Except.error (.typeError "inconsistent parent container"))
      let m' ← (match fty, v with
        | .scalarStr, .str str => Except.ok (PMsg.mk (aupdate m.fields name (.strF str)))
        | .scalarStr, _ => Except.error (.typeError "str field expects a str value")
        | _, _ => Except.error (.attributeError "Assignment not allowed to composite field"))
      .ok (.mk s.descr (some m') s.readOnly (aerase s.cache k))

/-- `Message.__delitem__` (lines 154-162): read-only check, schema
check, then — only when `self._message` exists — `del self._message[key]`.
protobuf message objects do not implement item deletion, so that
statement raises `TypeError`; with an absent backing the operation is a
no-op. -/
def msgDel (s : MsgState) (k : PyKey) : Except Err MsgState :=
  if s.readOnly then .error .readOnly else
  match k with
  | .i n => .error (.attributeError (toString n))
  | .s name =>
    match alookup s.descr.fields name with
    | none => .error (.attributeError name)
    | some _ =>
      match s.message with
      | none => .ok s
      | some _ => .error (.typeError "object does not support item deletion")

/-- `Message.__call__` (lines 120-129): read-only check, lazy
materialization, `self._message.Clear()`, cache reset, then each keyword
applied through `__setitem__` in order. -/
def msgCall (mat : Except Err Backing) (s : MsgState)
    (kwargs : List (String × MVal)) : Except Err MsgState :=
  if s.readOnly then .error .readOnly else do
    let m ← (match s.message with
      | some m => Except.ok m
      | none => do
        let b ← mat
        match b with
        | .msg m => Except.ok m
        | _ => Except.error (.typeError "inconsistent parent container"))
    let s1 : MsgState := .mk s.descr (some (pmsgClear m)) s.readOnly []
    kwargs.foldlM (fun st kv => msgSet mat st (.s kv.1) kv.2) s1

/-! ## `MapMessage` accessor methods -/

/-- `MapMessage.__getitem__` (lines 177-199): cache hit returns the
cached object; with an absent backing the membership test is
short-circuited (line 180) and the child is bound to an absent element —
for any key, even an `int` one; with a present backing, an `int` key
raises `TypeError` from the string-keyed map's membership test.  The
child (here always a `Message` accessor for the map's value type, see
`MapState`) inherits `self._read_only` and is cached (line 198).  Note:
no schema check of the key happens — any text key is legal. -/
def mapGet (s : MapState) (k : PyKey) : Except Err (MRet × MapState) :=
  match alookup s.cache k with
  | some v => .ok (v, s)
  | none => do
    let value ← (match s.messages with
      | none => Except.ok Option.none
      | some es =>
        match k with
        | .s kk => Except.ok (alookup es kk)
        | .i _ => Except.error (.typeError "int is not a valid string map key"))
    let r : MRet := .msgA (.mk s.valueDescr value s.readOnly [])
    .ok (r, .mk s.valueDescr s.messages s.readOnly (s.cache ++ [(k, r)]))

/-- `MapMessage.__bool__` (lines 201-202). -/
def mapBool (s : MapState) : Bool :=
  match s.messages with
  | none => false
  | some es => 0 < es.length

/-- `MapMessage.__len__` (lines 204-205): live entry count, `0` when the
backing map is absent. -/
def mapLen (s : MapState) : Nat :=
  match s.messages with
  | none => 0
  | some es => es.length

/-- `MapMessage.__contains__` (lines 207-208): `False` on an absent
backing (before any key inspection); live key-set membership otherwise
(an `int` key raises `TypeError` on a string-keyed protobuf map).
No mutation is possible (no state is returned). -/
def mapContains (s : MapState) (k : PyKey) : Except Err Bool :=
  match s.messages with
  | none => .ok false
  | some es =>
    match k with
    | .s kk => .ok (alookup es kk).isSome
    | .i _ => .error (.typeError "int is not a valid string map key")

/-- `MapMessage._create_child` (lines 241-246): read-only check, lazy
materialization (line 245 correctly assigns through `self.__dict__`),
then `self._messages[key]` — which on a message-valued protobuf map
auto-inserts a default entry for a missing key. -/
def mapCreateChild (mat : Except Err Backing) (s : MapState) (k : PyKey) :
    Except Err (Backing × MapState) :=
  if s.readOnly then .error .readOnly else do
    let es ← (match s.messages with
      | some es => Except.ok es
      | none => do
        let b ← mat
        match b with
        | .mapb es => Except.ok es
        | _ => Except.error (.typeError "inconsistent parent container"))
    match k with
    | .i _ => .error (.typeError "int is not a valid string map key")
    | .s kk =>
      let entry := (alookup es kk).getD (defaultPMsg s.valueDescr)
      let es1 := if (alookup es kk).isSome then es else aupdate es kk entry
      .ok (.msg entry, .mk s.valueDescr (some es1) s.readOnly s.cache)

/-- A value passed to `MapMessage.__setitem__` / `RepeatedMessage`
mutators.  `backing` carries the container that line 266's recursive
`__setattr__` call passes along. -/
inductive MapVal where
  | msgAcc (a : MsgState)
  | raw (m : PMsg)
  | backing (b : Backing)

/-- `MapMessage.__setitem__` (lines 262-271), with a fuel parameter
because the code can recurse unboundedly: when `self._messages is None`,
line 266 executes `self._messages = self._parent._create_child(self._key)`
— a plain attribute assignment that is intercepted by
`MapMessage.__setattr__` (lines 259-260) and turned into
`self['_messages'] = ...`, i.e. a recursive `__setitem__` call on the
same accessor whose `_messages` is still `None`; CPython aborts the
unbounded recursion with `RecursionError` (modelled as running out of
fuel).  With a present backing, the coerced value is stored with
`self._messages[key] = message`, which a message-valued protobuf map
rejects with `ValueError('Direct assignment of submessage not
allowed')`, so the cache invalidation on lines 270-271 is never
reached. -/
def mapSet (mat : Except Err Backing) :
    Nat → MapState → PyKey → MapVal → Except Err MapState
  | 0, _, _, _ => .error .recursionError
  | fuel + 1, s, _k, v =>
    if s.readOnly then .error .readOnly else
    match s.messages with
    | none => do
      let b ← mat
      mapSet mat fuel s (.s "_messages") (.backing b)
    | some _ =>
      let _coerced := match v with
        | .msgAcc a => a.message
        | .raw m => some m
        | .backing _ => Option.none
      .error (.valueError "Direct assignment of submessage not allowed")

/-- `MapMessage.__call__` (lines 248-257): read-only check, lazy
materialization (line 252 assigns through `self.__dict__`, so no
recursion here), `Clear()`, cache reset, then each keyword applied
through `__setitem__` — which, as `mapSet` shows, fails on the first
keyword for a message-valued map. -/
def mapCall (mat : Except Err Backing) (fuel : Nat) (s : MapState)
    (kwargs : List (String × MapVal)) : Except Err MapState :=
  if s.readOnly then .error .readOnly else do
    let es ← (match s.messages with
      | some es => Except.ok es
      | none => do
        let b ← mat
        match b with
        | .mapb es => Except.ok es
        | _ => Except.error (.typeError "inconsistent parent container"))
    let _ := es
    let s1 : MapState := .mk s.valueDescr (some []) s.readOnly []
    kwargs.foldlM (fun st kv => mapSet mat fuel st (.s kv.1) kv.2) s1

/-! ## `RepeatedMessage` accessor methods -/

/-- `RepeatedMessage.__getitem__` (lines 297-306): cache hit returns the
cached object; an index beyond the backing (or an absent backing, for
any key) binds the child to an absent element — never an error; a `str`
key against a present backing raises `TypeError` from the `key >=
len(...)` comparison.  Line 304 builds
`Message(self._parent, key, self._descriptor, message, self._read_only)`:
the child's `_parent` is the RepeatedMessage's own PARENT (not the
RepeatedMessage itself) and its `_key` is the integer index, so a later
lazy materialization triggered by writing through the child calls
`grandparent._create_child(index)` instead of
`RepeatedMessage._create_child(index)`. -/
def repGet (s : RepState) (k : PyKey) : Except Err (MRet × RepState) :=
  match alookup s.cache k with
  | some v => .ok (v, s)
  | none => do
    let message ← (match s.messages with
      | none => Except.ok Option.none
      | some ms =>
        match k with
        | .s _ => Except.error (.typeError "not supported between instances of str and int")
        | .i n => Except.ok ms[n]?)
    let r : MRet := .msgA (.mk s.descr message s.readOnly [])
    .ok (r, .mk s.descr s.messages s.readOnly (s.cache ++ [(k, r)]))

/-- `RepeatedMessage.__bool__` (lines 308-309). -/
def repBool (s : RepState) : Bool :=
  match s.messages with
  | none => false
  | some ms => 0 < ms.length

/-- `RepeatedMessage.__len__` (lines 311-312). -/
def repLen (s : RepState) : Nat :=
  match s.messages with
  | none => 0
  | some ms => ms.length

/-- Python `key == element` for a key against a protobuf message element:
an `int` or `str` never equals a `Message`, so always `False`. -/
def keyEqMsg (_k : PyKey) (_m : PMsg) : Bool :=
  false

/-- `RepeatedMessage.__contains__` (lines 314-315): `False` on an absent
backing; with a present backing, `key in self._messages` iterates the
repeated container comparing the key against each element message
(value membership, not index membership), which is `False` for any
`int`/`str` key. -/
def repContains (s : RepState) (k : PyKey) : Bool :=
  match s.messages with
  | none => false
  | some ms => ms.any (keyEqMsg k)

/-- `RepeatedMessage._create_child` (lines 346-353): read-only check,
lazy materialization, growth with default elements until the index
exists, then the element.  (This is the routine line 304 should have
wired the children to; the wiring bug makes it unreachable from them.) -/
def repCreateChild (mat : Except Err Backing) (s : RepState) (k : PyKey) :
    Except Err (Backing × RepState) :=
  if s.readOnly then .error .readOnly else do
    let ms ← (match s.messages with
      | some ms => Except.ok ms
      | none => do
        let b ← mat
        match b with
        | .rep ms => Except.ok ms
        | _ => Except.error (.typeError "inconsistent parent container"))
    match k with
    | .s _ => .error (.typeError "not supported between instances of str and int")
    | .i n =>
      let ms1 := ms ++ List.replicate (n + 1 - ms.length) (defaultPMsg s.descr)
      .ok (.msg (ms1.getD n (defaultPMsg s.descr)),
           .mk s.descr (some ms1) s.readOnly s.cache)

/-- `RepeatedMessage.__setitem__` (lines 366-377): read-only check, lazy
materialization (line 370 is a plain attribute assignment; this class
defines no `__setattr__`, so unlike `MapMessage` nothing recurses),
growth until the index exists, then `self._messages[key] = message` —
which a repeated composite protobuf container rejects with `TypeError`
(it does not support item assignment), so the cache invalidation on
lines 376-377 is never reached. -/
def repSet (mat : Except Err Backing) (s : RepState) (k : PyKey)
    (v : MapVal) : Except Err RepState :=
  if s.readOnly then .error .readOnly else do
    let _ms ← (match s.messages with
      | some ms => Except.ok ms
      | none => do
        let b ← mat
        match b with
        | .rep ms => Except.ok ms
        | _ => Except.error (.typeError "inconsistent parent container"))
    match k with
    | .s _ => .error (.typeError "not supported between instances of str and int")
    | .i _ =>
      let _coerced := match v with
        | .msgAcc a => a.message
        | .raw m => some m
        | .backing _ => Option.none
      .error (.typeError "does not support item assignment")

/-- `RepeatedMessage.__delitem__` (lines 379-385): after the read-only
check, line 382 reads `self._values` — an attribute this class never
assigns (`__init__`, lines 289-295, assigns `_parent`, `_key`,
`_descriptor`, `_messages`, `_read_only`, `_cache`) and for which no
`__getattr__` fallback exists on `RepeatedMessage`, so CPython raises
`AttributeError('_values')` unconditionally, whatever the index and
whether or not the backing sequence exists. -/
def repDel (s : RepState) (_k : PyKey) : Except Err RepState :=
  if s.readOnly then .error .readOnly
  else .error (.attributeError "_values")

/-- `RepeatedMessage.append` (lines 387-396): read-only check, lazy
materialization, then either `add()` (fresh default element) or
`append(message)` (copies a raw message in), and finally `self[len - 1]`
— a `__getitem__` call that builds, caches and returns the child
accessor for the new last element. -/
def repAppend (mat : Except Err Backing) (s : RepState) (arg : Option PMsg) :
    Except Err (MRet × RepState) :=
  if s.readOnly then .error .readOnly else do
    let ms ← (match s.messages with
      | some ms => Except.ok ms
      | none => do
        let b ← mat
        match b with
        | .rep ms => Except.ok ms
        | _ => Except.error (.typeError "inconsistent parent container"))
    let ms1 := ms ++ [arg.getD (defaultPMsg s.descr)]
    repGet (.mk s.descr (some ms1) s.readOnly s.cache) (.i (ms1.length - 1))

/-- `RepeatedMessage.__call__` (lines 355-364): read-only check, lazy
materialization, `Clear()`, cache reset, then one `append` per
positional argument. -/
def repCall (mat : Except Err Backing) (s : RepState) (args : List (Option PMsg)) :
    Except Err RepState :=
  if s.readOnly then .error .readOnly else do
    let ms ← (match s.messages with
      | some ms => Except.ok ms
      | none => do
        let b ← mat
        match b with
        | .rep ms => Except.ok ms
        | _ => Except.error (.typeError "inconsistent parent container"))
    let _ := ms
    let s1 : RepState := .mk s.descr (some []) s.readOnly []
    args.foldlM (fun st a => (repAppend mat st a).map Prod.snd) s1

/-! ## `MapMessage.__delitem__` and `__eq__`, which read the missing
`_descriptor` attribute -/

/-- Python's substring test `sub in hay`. -/
def strContains (hay sub : String) : Bool :=
  sub.isEmpty || 2 ≤ (hay.splitOn sub).length

/-- Python `key in x` where `x` is a value handed out by one of the
accessors' `__getitem__`: dispatches to the accessor's `__contains__`,
or to the string substring test, or raises for `None`. -/
def mretContains (r : MRet) (k : PyKey) : Except Err Bool :=
  match r with
  | .msgA c => .ok (msgContains c k)
  | .mapA c => mapContains c k
  | .repA c => .ok (repContains c k)
  | .valA v => vContains v k
  | .scalar str =>
    match k with
    | .s sub => .ok (strContains str sub)
    | .i _ => .error (.typeError "in requires string as left operand")
  | .pyNone => .error (.typeError "argument of type NoneType is not iterable")

/-- `MapMessage.__delitem__` (lines 276-285): after the read-only check,
line 279 evaluates `self._descriptor.fields_by_name`.  `MapMessage`
never stores a `_descriptor` attribute (its `__init__`, lines 166-172,
stores `_field`), so `self._descriptor` falls through to `__getattr__`
(lines 174-175) = `self['_descriptor']` — a live map lookup that builds
(and caches) a `Message` child accessor for the key `'_descriptor'`.
Reading `.fields_by_name` on that child is again `__getattr__` →
`__getitem__`, which raises `AttributeError('fields_by_name')` unless
the map's value schema declares a field literally named
`fields_by_name`; no real protobuf schema does, so deletion always
raises before touching the backing map.  (The remainder of the method,
including the `self._caache` typo on line 284 — yet another missing
attribute resolved as a live map lookup — is transcribed for
completeness.) -/
def mapDel (s : MapState) (k : PyKey) : Except Err MapState :=
  if s.readOnly then .error .readOnly else do
    let (r, s1) ← mapGet s (.s "_descriptor")
    match r with
    | .msgA c => do
      let (fbn, _c1) ← msgGet c (.s "fields_by_name")
      let mem ← mretContains fbn k
      if !mem then .error (.attributeError (pyKeyStr k))
      else match s1.messages with
      | none => .ok s1
      | some es =>
        match k with
        | .i _ => .error (.typeError "int is not a valid string map key")
        | .s kk => do
          let es1 := if (alookup es kk).isSome then aerase es kk else es
          let s2 : MapState := .mk s1.valueDescr (some es1) s1.readOnly s1.cache
          let (cA, s3) ← mapGet s2 (.s "_caache")
          let mem2 ← mretContains cA k
          if mem2 then
            .ok (.mk s3.valueDescr s3.messages s3.readOnly (aerase s3.cache k))
          else .ok s3
    | _ => .error (.typeError "unreachable: MapMessage children are Message accessors in this model")

mutual
/-- Python `a == b` for values handed out by the message-side accessors:
same-kind accessors dispatch to their `__eq__`; everything else (scalar
against accessor, `None` against anything, mismatched accessor kinds)
compares unequal, because each `__eq__` starts with an `isinstance`
check and CPython's reflected comparison of unrelated types yields
`False`.  The fuel bounds the recursion depth (CPython's recursion
limit). -/
def mretEq : Nat → MRet → MRet → Except Err Bool
  | 0, _, _ => .error .recursionError
  | fuel + 1, a, b =>
    match a, b with
    | .scalar x, .scalar y => .ok (x == y)
    | .pyNone, .pyNone => .ok true
    | .msgA x, .msgA y => msgEqF fuel x y
    | .mapA x, .mapA y => mapEqF fuel x y
    | .repA x, .repA y => repEqF fuel x y
    | .valA x, .valA y => vEqF fuel x y
    | _, _ => .ok false

/-- `Message.__eq__` (lines 92-108): schema full-name check, `None`
checks on the backing, descriptor-length check (`__len__` counts schema
fields), then field-by-field comparison in schema order via `__iter__`
(lines 83-85) and `__contains__`. -/
def msgEqF : Nat → MsgState → MsgState → Except Err Bool
  | 0, _, _ => .error .recursionError
  | fuel + 1, a, b =>
    if a.descr.fullName ≠ b.descr.fullName then .ok false
    else match a.message, b.message with
    | none, none => .ok true
    | none, some _ => .ok false
    | some _, none => .ok false
    | some _, some _ =>
      if msgLen a ≠ msgLen b then .ok false
      else msgEqFields fuel (a.descr.fields.map Prod.fst) a b

def msgEqFields : Nat → List String → MsgState → MsgState → Except Err Bool
  | 0, _, _, _ => .error .recursionError
  | _ + 1, [], _, _ => .ok true
  | fuel + 1, name :: rest, a, b => do
    let (v1, a1) ← msgGet a (.s name)
    if !msgContains b (.s name) then .ok false
    else do
      let (v2, b1) ← msgGet b (.s name)
      let r ← mretEq fuel v1 v2
      if r then msgEqFields fuel rest a1 b1 else .ok false

/-- `RepeatedMessage.__eq__` (lines 327-341): schema full-name check
(this class does store `_descriptor`), `None` checks, length check, then
element-by-element comparison in index order — order-sensitive. -/
def repEqF : Nat → RepState → RepState → Except Err Bool
  | 0, _, _ => .error .recursionError
  | fuel + 1, a, b =>
    if a.descr.fullName ≠ b.descr.fullName then .ok false
    else match a.messages, b.messages with
    | none, none => .ok true
    | none, some _ => .ok false
    | some _, none => .ok false
    | some _, some _ =>
      if repLen a ≠ repLen b then .ok false
      else repEqIx fuel (List.range (repLen a)) a b

def repEqIx : Nat → List Nat → RepState → RepState → Except Err Bool
  | 0, _, _, _ => .error .recursionError
  | _ + 1, [], _, _ => .ok true
  | fuel + 1, ix :: rest, a, b => do
    let (v1, a1) ← repGet a (.i ix)
    let (v2, b1) ← repGet b (.i ix)
    let r ← mretEq fuel v1 v2
    if r then repEqIx fuel rest a1 b1 else .ok false

/-- `MapMessage.__eq__` (lines 220-236): line 223 reads
`self._descriptor.full_name` — as in `mapDel`, `_descriptor` is not an
instance attribute, so it resolves through `__getattr__` to a live map
lookup producing a `Message` child for the key `'_descriptor'`, and
`.full_name` on that child raises `AttributeError('full_name')` unless
the value schema declares a field of that name; comparing two
`MapMessage` accessors therefore always raises for real schemas.  The
rest (key-set + per-key comparison, insertion-order-independent) is
transcribed for completeness. -/
def mapEqF : Nat → MapState → MapState → Except Err Bool
  | 0, _, _ => .error .recursionError
  | fuel + 1, a, b => do
    let (r1, a1) ← mapGet a (.s "_descriptor")
    let f1 ← (match r1 with
      | .msgA c => (msgGet c (.s "full_name")).map Prod.fst
      | _ => Except.error (.typeError "unreachable: MapMessage children are Message accessors in this model"))
    let (r2, b1) ← mapGet b (.s "_descriptor")
    let f2 ← (match r2 with
      | .msgA c => (msgGet c (.s "full_name")).map Prod.fst
      | _ => Except.error (.typeError "unreachable: MapMessage children are Message accessors in this model"))
    let eqv ← mretEq fuel f1 f2
    if !eqv then .ok false
    else match a1.messages, b1.messages with
    | none, none => .ok true
    | none, some _ => .ok false
    | some _, none => .ok false
    | some es, some _ =>
      if mapLen a1 ≠ mapLen b1 then .ok false
      else mapEqKeys fuel (es.map Prod.fst) a1 b1

def mapEqKeys : Nat → List String → MapState → MapState → Except Err Bool
  | 0, _, _, _ => .error .recursionError
  | _ + 1, [], _, _ => .ok true
  | fuel + 1, kk :: rest, a, b => do
    let (v1, a1) ← mapGet a (.s kk)
    let inB ← mapContains b (.s kk)
    if !inB then .ok false
    else do
      let (v2, b1) ← mapGet b (.s kk)
      let r ← mretEq fuel v1 v2
      if r then mapEqKeys fuel rest a1 b1 else .ok false

/-- `Values.__eq__` (lines 505-526): typing check, `None` checks, length
check, then per-key comparison for `MAP` typing (order-independent) or
per-index comparison for `LIST` typing (order-sensitive); an accessor
pair whose (equal) typing is `UNKNOWN` compares `True` once past the
`None`/length checks, since neither loop runs. -/
def vEqF : Nat → VState → VState → Except Err Bool
  | 0, _, _ => .error .recursionError
  | fuel + 1, a, b =>
    if a.type ≠ b.type then .ok false
    else match a.values, b.values with
    | none, none => .ok true
    | none, some _ => .ok false
    | some _, none => .ok false
    | some ca, some _ =>
      if vLen a ≠ vLen b then .ok false
      else match a.type with
      | .map =>
        match ca with
        | .struct fs => vEqKeys fuel (fs.map Prod.fst) a b
        | .list _ => .error (.typeError "argument of type is not iterable")
      | .list => vEqIx fuel (List.range (vLen a)) a b
      | .unknown => .ok true

def vEqKeys : Nat → List String → VState → VState → Except Err Bool
  | 0, _, _, _ => .error .recursionError
  | _ + 1, [], _, _ => .ok true
  | fuel + 1, kk :: rest, a, b => do
    let (v1, a1) ← vGet a (.s kk)
    let inB ← vContains b (.s kk)
    if !inB then .ok false
    else do
      let (v2, b1) ← vGet b (.s kk)
      let r ← vretEq fuel v1 v2
      if r then vEqKeys fuel rest a1 b1 else .ok false

def vEqIx : Nat → List Nat → VState → VState → Except Err Bool
  | 0, _, _, _ => .error .recursionError
  | _ + 1, [], _, _ => .ok true
  | fuel + 1, ix :: rest, a, b => do
    let (v1, a1) ← vGet a (.i ix)
    let (v2, b1) ← vGet b (.i ix)
    let r ← vretEq fuel v1 v2
    if r then vEqIx fuel rest a1 b1 else .ok false

/-- Python `a == b` for values handed out by `Values.__getitem__`:
scalars compare by value (with CPython's `True == 1` numeric
equivalence of `bool` and numbers), child accessors via
`Values.__eq__`, cross-kind pairs compare unequal. -/
def vretEq : Nat → VRet → VRet → Except Err Bool
  | 0, _, _ => .error .recursionError
  | fuel + 1, x, y =>
    match x, y with
    | .pyNone, .pyNone => .ok true
    | .pyBool b1, .pyBool b2 => .ok (b1 == b2)
    | .pyNum n1, .pyNum n2 => .ok (n1 == n2)
    | .pyStr s1, .pyStr s2 => .ok (s1 == s2)
    | .pyBool b1, .pyNum n2 => .ok ((if b1 then (1 : Int) else 0) == n2)
    | .pyNum n1, .pyBool b2 => .ok (n1 == (if b2 then (1 : Int) else 0))
    | .child v1, .child v2 => vEqF fuel v1 v2
    | _, _ => .ok false
end

/-! ## Read-only flag observation -/

/-- The `_read_only` flag of the accessor inside a `__getitem__` result,
when the result is an accessor (`none` for plain scalars / `None`). -/
def mretRO : MRet → Option Bool
  | .msgA c => some c.readOnly
  | .mapA c => some c.readOnly
  | .repA c => some c.readOnly
  | .valA v => some v.readOnly
  | .scalar _ => none
  | .pyNone => none

/-- The `_read_only` flag of the accessor inside a `Values.__getitem__`
result, when the result is a child accessor. -/
def vretRO : VRet → Option Bool
  | .child v => some v.readOnly
  | .pyNone => none
  | .pyBool _ => none
  | .pyNum _ => none
  | .pyStr _ => none

/-- A successful message-side `get` hands out either a plain scalar or a
child accessor carrying the given read-only flag. -/
def roPropagates {σ : Type} (r : Except Err (MRet × σ)) (ro : Bool) : Prop :=
  match r with
  | .ok (v, _) => mretRO v = none ∨ mretRO v = some ro
  | .error _ => True

/-- The `Values` analogue of `roPropagates`. -/
def vroPropagates {σ : Type} (r : Except Err (VRet × σ)) (ro : Bool) : Prop :=
  match r with
  | .ok (v, _) => vretRO v = none ∨ vretRO v = some ro
  | .error _ => True

/-! ## Concrete schema and scenario objects

A small schema in the shape of the repository's
`run_function_pb2` types: a root message with a string scalar, a
repeated message field, a message-valued map field and a `Struct`
field. -/

def itemDescr : Descr := .mk "test.Item" [("name", .scalarStr)]

def resourceDescr : Descr :=
  .mk "fnv1.Resource" [("resource", .structTy), ("ready", .scalarStr)]

def rootDescr : Descr :=
  .mk "test.Root"
    [("name", .scalarStr), ("items", .repTy itemDescr),
     ("resources", .mapTy resourceDescr), ("data", .structTy)]

/-- A present (deserialized) root backing message with all fields at
their defaults. -/
def rootPMsg : PMsg :=
  .mk [("name", .strF ""), ("items", .repF []),
       ("resources", .mapF []), ("data", .structF [])]

/-- A root `Message` accessor over the present backing. -/
def rootAcc : MsgState := .mk rootDescr (some rootPMsg) false []

/-- The root accessor's own materialization callback: a root has
`_parent = None`, so `self._parent._create_child(...)` would raise
`AttributeError` on `None` — but with a present backing it is never
invoked. -/
def rootAccMat : Except Err Backing :=
  .error (.attributeError "NoneType object has no attribute")

/-- The child accessor `rep[0]` hands out in the C2 scenario: bound to
an absent element of the repeated `items` field (lines 300-304). -/
def c2item : MsgState := .mk itemDescr none false []

/-- The materialization callback of `c2item` as wired by line 304:
the child's `_parent` is the RepeatedMessage's parent — the root
accessor — and its `_key` is the integer index `0`, so writing through
the child calls `rootAcc._create_child(0)` (line 117), i.e.
`getattr(rootAcc._message, 0)`. -/
def c2itemMat : Except Err Backing :=
  (msgCreateChild rootAccMat rootAcc (.i 0)).map Prod.fst

/-- The parent wiring of the C7 scenarios.  `c7childPcc` is the
materialization callback of a fresh child at key `"cfg"` under a
`MAP`-typed `Values` parent (`self._parent._create_child('cfg', type)`,
line 598 → lines 531-562); `c7msgPcc` is the callback of a fresh child
at the `Struct` field `"data"` under the root `Message` accessor
(line 117 ignores the requested typing and returns the raw field). -/
def c7vparent : VState := .mk (some (.struct [])) .map false []

def c7deadPcc : VType → Except Err Container :=
  fun _ => .error (.attributeError "unused")

def c7childPcc : VType → Except Err Container :=
  fun ty => (vCreateChild c7deadPcc c7vparent (.s "cfg") ty).map Prod.fst

def backingToContainer : Backing → Except Err Container
  | .structb fs => .ok (.struct fs)
  | .listb vs => .ok (.list vs)
  | _ => .error (.typeError "inconsistent parent container")

def c7msgPcc : VType → Except Err Container :=
  fun _ => (msgCreateChild rootAccMat rootAcc (.s "data")).bind
    (fun p => backingToContainer p.1)

def resA : PMsg := .mk [("resource", .structF [("v", .strV "1")]), ("ready", .strF "")]

def resB : PMsg := .mk [("resource", .structF [("v", .strV "2")]), ("ready", .strF "")]

def msgX : PMsg := .mk [("name", .strF "x")]

def msgY : PMsg := .mk [("name", .strF "y")]

/-! ## General lemmas about the association-list helpers -/

theorem alookup_eq_none_of_not_mem {κ α : Type} [DecidableEq κ]
    (fs : List (κ × α)) (k : κ) (h : k ∉ fs.map Prod.fst) :
    alookup fs k = none := by
  induction fs with
  | nil => rfl
  | cons hd tl ih =>
    simp only [List.map_cons, List.mem_cons, not_or] at h
    have hne : hd.1 ≠ k := fun he => h.1 he.symm
    simp only [alookup, if_neg hne]
    exact ih h.2

theorem alookup_aerase_self {κ α : Type} [DecidableEq κ]
    (fs : List (κ × α)) (k : κ) (h : (fs.map Prod.fst).Nodup) :
    alookup (aerase fs k) k = none := by
  induction fs with
  | nil => rfl
  | cons hd tl ih =>
    simp only [List.map_cons, List.nodup_cons] at h
    obtain ⟨hni, hnd⟩ := h
    by_cases hk : hd.1 = k
    · subst hk
      simp only [aerase, if_pos rfl]
      exact alookup_eq_none_of_not_mem tl hd.1 hni
    · simp only [aerase, if_neg hk, alookup, if_neg hk]
      exact ih hnd

theorem alookup_aerase_ne {κ α : Type} [DecidableEq κ]
    (c : List (κ × α)) (k k' : κ) (h : k' ≠ k) :
    alookup (aerase c k) k' = alookup c k' := by
  induction c with
  | nil => rfl
  | cons hd tl ih =>
    by_cases hk : hd.1 = k
    · subst hk
      have hne : hd.1 ≠ k' := fun he => h he.symm
      simp [aerase, alookup, hne]
    · simp only [aerase, if_neg hk, alookup]
      by_cases hk' : hd.1 = k'
      · simp [if_pos hk']
      · simp only [if_neg hk']
        exact ih

theorem alookup_append_self {κ α : Type} [DecidableEq κ]
    (c : List (κ × α)) (k : κ) (r : α) (h : alookup c k = none) :
    alookup (c ++ [(k, r)]) k = some r := by
  induction c with
  | nil => simp [alookup]
  | cons hd tl ih =>
    by_cases hk : hd.1 = k
    · simp only [alookup, if_pos hk] at h
      exact absurd h (by simp)
    · simp only [alookup, if_neg hk] at h
      simp only [List.cons_append, alookup, if_neg hk]
      exact ih h

/-! ## Definitional lemmas for the `Except` monad -/

theorem ebind_ok {ε α β : Type} (a : α) (f : α → Except ε β) :
    (Except.ok (ε := ε) a >>= f) = f a := rfl

theorem ebind_error {ε α β : Type} (e : ε) (f : α → Except ε β) :
    (Except.error (α := α) e >>= f) = Except.error (α := β) e := rfl

theorem emap_ok {ε α β : Type} (f : α → β) (a : α) :
    Except.map f (Except.ok (ε := ε) a) = .ok (f a) := rfl

theorem emap_error {ε α β : Type} (f : α → β) (e : ε) :
    Except.map f (Except.error (α := α) e) = Except.error (α := β) e := rfl

theorem ethrow {ε α : Type} (e : ε) : (throw e : Except ε α) = .error e := rfl

theorem epure {ε α : Type} (a : α) : (pure a : Except ε α) = .ok a := rfl

/-! ## Case-analysis lemmas for the `get` operations -/

theorem mkChild_ro (ro : Bool) (fty : FieldTy) (val : Option Backing)
    (r : MRet) (h : mkChild ro fty val = .ok r) :
    mretRO r = none ∨ mretRO r = some ro := by
  cases val with
  | none =>
    cases fty <;> simp_all [mkChild] <;> subst h <;>
      simp [mretRO, MsgState.readOnly, MapState.readOnly, RepState.readOnly,
        VState.readOnly]
  | some b =>
    cases b <;> cases fty <;> simp_all [mkChild] <;> subst h <;>
      simp [mretRO, MsgState.readOnly, MapState.readOnly, RepState.readOnly,
        VState.readOnly]

theorem msgGet_cases (d : Descr) (m : Option PMsg) (ro : Bool)
    (c : List (PyKey × MRet)) (k : PyKey) :
    (∃ v, alookup c k = some v ∧
      msgGet (.mk d m ro c) k = .ok (v, .mk d m ro c)) ∨
    (∃ e, msgGet (.mk d m ro c) k = .error e) ∨
    (∃ fty val r, alookup c k = none ∧ mkChild ro fty val = .ok r ∧
      msgGet (.mk d m ro c) k = .ok (r, .mk d m ro (c ++ [(k, r)]))) := by
  cases hc : alookup c k with
  | some v =>
    exact Or.inl ⟨v, rfl, by simp [msgGet, MsgState.cache, hc]⟩
  | none =>
    right
    rcases k with name | n
    · cases hf : alookup d.fields name with
      | none =>
        exact Or.inl ⟨.attributeError name,
          by simp [msgGet, MsgState.cache, MsgState.descr, hc, hf, ebind_ok, ebind_error, emap_ok, emap_error, ethrow, epure]⟩
      | some fty =>
        cases m with
        | none =>
          cases hmc : mkChild ro fty none with
          | error e =>
            exact Or.inl ⟨e, by simp [msgGet, MsgState.cache, MsgState.descr,
              MsgState.message, MsgState.readOnly, hc, hf, hmc, ebind_ok, ebind_error, emap_ok, emap_error, ethrow, epure]⟩
          | ok r =>
            exact Or.inr ⟨fty, none, r, rfl, hmc,
              by simp [msgGet, MsgState.cache, MsgState.descr, MsgState.message,
                MsgState.readOnly, hc, hf, hmc, ebind_ok, ebind_error, emap_ok, emap_error, ethrow, epure]⟩
        | some mm =>
          cases hg : pmsgGetAttr mm (.s name) with
          | error e =>
            exact Or.inl ⟨e, by simp [msgGet, MsgState.cache, MsgState.descr,
              MsgState.message, MsgState.readOnly, hc, hf, hg, ebind_ok, ebind_error, emap_ok, emap_error, ethrow, epure]⟩
          | ok b =>
            cases hmc : mkChild ro fty (some b) with
            | error e =>
              exact Or.inl ⟨e, by simp [msgGet, MsgState.cache, MsgState.descr,
                MsgState.message, MsgState.readOnly, hc, hf, hg, hmc,
                ebind_ok, ebind_error, emap_ok, emap_error, ethrow, epure]⟩
            | ok r =>
              exact Or.inr ⟨fty, some b, r, rfl, hmc,
                by simp [msgGet, MsgState.cache, MsgState.descr, MsgState.message,
                  MsgState.readOnly, hc, hf, hg, hmc, ebind_ok, ebind_error, emap_ok, emap_error, ethrow, epure]⟩
    · exact Or.inl ⟨.attributeError (toString n),
        by simp [msgGet, MsgState.cache, hc, ebind_ok, ebind_error, emap_ok, emap_error, ethrow, epure]⟩

theorem mapGet_cases (vd : Descr) (ms : Option (List (String × PMsg)))
    (ro : Bool) (c : List (PyKey × MRet)) (k : PyKey) :
    (∃ v, alookup c k = some v ∧
      mapGet (.mk vd ms ro c) k = .ok (v, .mk vd ms ro c)) ∨
    (∃ e, mapGet (.mk vd ms ro c) k = .error e) ∨
    (∃ value, alookup c k = none ∧
      mapGet (.mk vd ms ro c) k =
        .ok (.msgA (.mk vd value ro []),
             .mk vd ms ro (c ++ [(k, .msgA (.mk vd value ro []))]))) := by
  cases hc : alookup c k with
  | some v =>
    exact Or.inl ⟨v, rfl, by simp [mapGet, MapState.cache, hc]⟩
  | none =>
    right
    cases ms with
    | none =>
      exact Or.inr ⟨none, rfl, by simp [mapGet, MapState.cache,
        MapState.messages, MapState.valueDescr, MapState.readOnly, hc,
        ebind_ok, ebind_error, emap_ok, emap_error, ethrow, epure]⟩
    | some es =>
      rcases k with kk | n
      · exact Or.inr ⟨alookup es kk, rfl, by simp [mapGet, MapState.cache,
          MapState.messages, MapState.valueDescr, MapState.readOnly, hc,
          ebind_ok, ebind_error, emap_ok, emap_error, ethrow, epure]⟩
      · exact Or.inl ⟨.typeError "int is not a valid string map key",
          by simp [mapGet, MapState.cache, MapState.messages, hc, ebind_ok, ebind_error, emap_ok, emap_error, ethrow, epure]⟩

theorem repGet_cases (d : Descr) (ms : Option (List PMsg)) (ro : Bool)
    (c : List (PyKey × MRet)) (k : PyKey) :
    (∃ v, alookup c k = some v ∧
      repGet (.mk d ms ro c) k = .ok (v, .mk d ms ro c)) ∨
    (∃ e, repGet (.mk d ms ro c) k = .error e) ∨
    (∃ message, alookup c k = none ∧
      repGet (.mk d ms ro c) k =
        .ok (.msgA (.mk d message ro []),
             .mk d ms ro (c ++ [(k, .msgA (.mk d message ro []))]))) := by
  cases hc : alookup c k with
  | some v =>
    exact Or.inl ⟨v, rfl, by simp [repGet, RepState.cache, hc]⟩
  | none =>
    right
    cases ms with
    | none =>
      exact Or.inr ⟨none, rfl, by simp [repGet, RepState.cache,
        RepState.messages, RepState.descr, RepState.readOnly, hc, ebind_ok, ebind_error, emap_ok, emap_error, ethrow, epure]⟩
    | some l =>
      rcases k with kk | n
      · exact Or.inl ⟨.typeError "not supported between instances of str and int",
          by simp [repGet, RepState.cache, RepState.messages, hc, ebind_ok, ebind_error, emap_ok, emap_error, ethrow, epure]⟩
      · exact Or.inr ⟨l[n]?, rfl, by simp [repGet, RepState.cache,
          RepState.messages, RepState.descr, RepState.readOnly, hc, ebind_ok, ebind_error, emap_ok, emap_error, ethrow, epure]⟩

theorem vGet_cases (vs : Option Container) (t : VType) (ro : Bool)
    (c : List (PyKey × VRet)) (k : PyKey) :
    (∃ v, alookup c k = some v ∧
      vGet (.mk vs t ro c) k = .ok (v, .mk vs t ro c)) ∨
    (∃ e, vGet (.mk vs t ro c) k = .error e) ∨
    (∃ sv t', alookup c k = none ∧
      vGet (.mk vs t ro c) k =
        .ok (svToVRet ro sv, .mk vs t' ro (c ++ [(k, svToVRet ro sv)]))) := by
  cases hc : alookup c k with
  | some v =>
    exact Or.inl ⟨v, rfl, by simp [vGet, VState.cache, hc]⟩
  | none =>
    right
    rcases k with kk | n
    · cases t with
      | list =>
        exact Or.inl ⟨.invalidKeyMap, by simp [vGet, VState.cache, VState.type,
          hc, ebind_ok, ebind_error, emap_ok, emap_error, ethrow, epure]⟩
      | map =>
        cases vs with
        | none =>
          exact Or.inr ⟨none, .map, rfl, by simp [vGet, VState.cache,
            VState.type, VState.values, VState.readOnly, hc, ebind_ok, ebind_error, emap_ok, emap_error, ethrow, epure]⟩
        | some co =>
          cases co with
          | struct fs =>
            exact Or.inr ⟨alookup fs kk, .map, rfl, by simp [vGet, VState.cache,
              VState.type, VState.values, VState.readOnly, hc, ebind_ok, ebind_error, emap_ok, emap_error, ethrow, epure]⟩
          | list l =>
            exact Or.inl ⟨.typeError "argument of type is not iterable",
              by simp [vGet, VState.cache, VState.type, VState.values, hc,
                ebind_ok, ebind_error, emap_ok, emap_error, ethrow, epure]⟩
      | unknown =>
        cases vs with
        | none =>
          exact Or.inr ⟨none, .map, rfl, by simp [vGet, VState.cache,
            VState.type, VState.values, VState.readOnly, hc, ebind_ok, ebind_error, emap_ok, emap_error, ethrow, epure]⟩
        | some co =>
          cases co with
          | struct fs =>
            exact Or.inr ⟨alookup fs kk, .map, rfl, by simp [vGet, VState.cache,
              VState.type, VState.values, VState.readOnly, hc, ebind_ok, ebind_error, emap_ok, emap_error, ethrow, epure]⟩
          | list l =>
            exact Or.inl ⟨.typeError "argument of type is not iterable",
              by simp [vGet, VState.cache, VState.type, VState.values, hc,
                ebind_ok, ebind_error, emap_ok, emap_error, ethrow, epure]⟩
    · cases t with
      | map =>
        exact Or.inl ⟨.invalidKeyList, by simp [vGet, VState.cache, VState.type,
          hc, ebind_ok, ebind_error, emap_ok, emap_error, ethrow, epure]⟩
      | list =>
        cases vs with
        | none =>
          exact Or.inr ⟨none, .list, rfl, by simp [vGet, VState.cache,
            VState.type, VState.values, VState.readOnly, hc, ebind_ok, ebind_error, emap_ok, emap_error, ethrow, epure]⟩
        | some co =>
          cases co with
          | list l =>
            exact Or.inr ⟨l[n]?, .list, rfl, by simp [vGet, VState.cache,
              VState.type, VState.values, VState.readOnly, hc, ebind_ok, ebind_error, emap_ok, emap_error, ethrow, epure]⟩
          | struct fs =>
            by_cases hn : n < fs.length
            · exact Or.inl ⟨.attributeError "values", by simp [vGet,
                VState.cache, VState.type, VState.values, hc, hn, ebind_ok, ebind_error, emap_ok, emap_error, ethrow, epure]⟩
            · exact Or.inr ⟨none, .list, rfl, by simp [vGet, VState.cache,
                VState.type, VState.values, VState.readOnly, hc, hn, ebind_ok, ebind_error, emap_ok, emap_error, ethrow, epure]⟩
      | unknown =>
        cases vs with
        | none =>
          exact Or.inr ⟨none, .list, rfl, by simp [vGet, VState.cache,
            VState.type, VState.values, VState.readOnly, hc, ebind_ok, ebind_error, emap_ok, emap_error, ethrow, epure]⟩
        | some co =>
          cases co with
          | list l =>
            exact Or.inr ⟨l[n]?, .list, rfl, by simp [vGet, VState.cache,
              VState.type, VState.values, VState.readOnly, hc, ebind_ok, ebind_error, emap_ok, emap_error, ethrow, epure]⟩
          | struct fs =>
            by_cases hn : n < fs.length
            · exact Or.inl ⟨.attributeError "values", by simp [vGet,
                VState.cache, VState.type, VState.values, hc, hn, ebind_ok, ebind_error, emap_ok, emap_error, ethrow, epure]⟩
            · exact Or.inr ⟨none, .list, rfl, by simp [vGet, VState.cache,
                VState.type, VState.values, VState.readOnly, hc, hn, ebind_ok, ebind_error, emap_ok, emap_error, ethrow, epure]⟩

theorem vretRO_svToVRet (ro : Bool) (sv : Option PValue) :
    vretRO (svToVRet ro sv) = none ∨ vretRO (svToVRet ro sv) = some ro := by
  rcases sv with _ | pv
  · right; rfl
  · cases pv <;> first | (left; rfl) | (right; rfl)

/-! ## Read-only propagation and cache lemmas -/

theorem msgGet_fresh_ro (d : Descr) (m : Option PMsg) (ro : Bool) (k : PyKey) :
    roPropagates (msgGet (.mk d m ro []) k) ro := by
  rcases msgGet_cases d m ro [] k with ⟨v, hv, _⟩ | ⟨e, h⟩ | ⟨fty, val, r, _, hmc, h⟩
  · cases hv
  · unfold roPropagates
    rw [h]
    trivial
  · unfold roPropagates
    rw [h]
    exact mkChild_ro ro fty val r hmc

theorem mapGet_fresh_ro (vd : Descr) (ms : Option (List (String × PMsg)))
    (ro : Bool) (k : PyKey) : roPropagates (mapGet (.mk vd ms ro []) k) ro := by
  rcases mapGet_cases vd ms ro [] k with ⟨v, hv, _⟩ | ⟨e, h⟩ | ⟨value, _, h⟩
  · cases hv
  · unfold roPropagates
    rw [h]
    trivial
  · unfold roPropagates
    rw [h]
    exact Or.inr rfl

theorem repGet_fresh_ro (d : Descr) (ms : Option (List PMsg)) (ro : Bool)
    (k : PyKey) : roPropagates (repGet (.mk d ms ro []) k) ro := by
  rcases repGet_cases d ms ro [] k with ⟨v, hv, _⟩ | ⟨e, h⟩ | ⟨message, _, h⟩
  · cases hv
  · unfold roPropagates
    rw [h]
    trivial
  · unfold roPropagates
    rw [h]
    exact Or.inr rfl

theorem vGet_fresh_ro (vs : Option Container) (t : VType) (ro : Bool)
    (k : PyKey) : vroPropagates (vGet (.mk vs t ro []) k) ro := by
  rcases vGet_cases vs t ro [] k with ⟨v, hv, _⟩ | ⟨e, h⟩ | ⟨sv, t', _, h⟩
  · cases hv
  · unfold vroPropagates
    rw [h]
    trivial
  · unfold vroPropagates
    rw [h]
    exact vretRO_svToVRet ro sv

theorem msgGet_idem (s : MsgState) (k : PyKey) :
    match msgGet s k with
    | .ok (r, s') => msgGet s' k = .ok (r, s')
    | .error _ => True := by
  obtain ⟨d, m, ro, c⟩ := s
  rcases msgGet_cases d m ro c k with ⟨v, hv, h⟩ | ⟨e, h⟩ | ⟨fty, val, r, hc, _, h⟩
  · rw [h]
    exact h
  · rw [h]
    trivial
  · rw [h]
    simp [msgGet, MsgState.cache, alookup_append_self c k r hc]

theorem mapGet_idem (s : MapState) (k : PyKey) :
    match mapGet s k with
    | .ok (r, s') => mapGet s' k = .ok (r, s')
    | .error _ => True := by
  obtain ⟨vd, ms, ro, c⟩ := s
  rcases mapGet_cases vd ms ro c k with ⟨v, hv, h⟩ | ⟨e, h⟩ | ⟨value, hc, h⟩
  · rw [h]
    exact h
  · rw [h]
    trivial
  · rw [h]
    simp [mapGet, MapState.cache,
      alookup_append_self c k (.msgA (.mk vd value ro [])) hc]

theorem repGet_idem (s : RepState) (k : PyKey) :
    match repGet s k with
    | .ok (r, s') => repGet s' k = .ok (r, s')
    | .error _ => True := by
  obtain ⟨d, ms, ro, c⟩ := s
  rcases repGet_cases d ms ro c k with ⟨v, hv, h⟩ | ⟨e, h⟩ | ⟨message, hc, h⟩
  · rw [h]
    exact h
  · rw [h]
    trivial
  · rw [h]
    simp [repGet, RepState.cache,
      alookup_append_self c k (.msgA (.mk d message ro [])) hc]

theorem vGet_idem (s : VState) (k : PyKey) :
    match vGet s k with
    | .ok (r, s') => vGet s' k = .ok (r, s')
    | .error _ => True := by
  obtain ⟨vs, t, ro, c⟩ := s
  rcases vGet_cases vs t ro c k with ⟨v, hv, h⟩ | ⟨e, h⟩ | ⟨sv, t', hc, h⟩
  · rw [h]
    exact h
  · rw [h]
    trivial
  · rw [h]
    simp [vGet, VState.cache, alookup_append_self c k (svToVRet ro sv) hc]

/-! ## Case-analysis lemmas for the `set` operations -/

theorem msgSet_cases (mat : Except Err Backing) (d : Descr) (m : Option PMsg)
    (ro : Bool) (c : List (PyKey × MRet)) (k : PyKey) (v : MVal) :
    (∃ e, msgSet mat (.mk d m ro c) k v = .error e) ∨
    (∃ m', msgSet mat (.mk d m ro c) k v =
      .ok (.mk d (some m') ro (aerase c k))) := by
  cases ro with
  | true => exact Or.inl ⟨.readOnly, rfl⟩
  | false =>
    rcases k with name | n
    · cases hf : alookup d.fields name with
      | none =>
        exact Or.inl ⟨.attributeError name, by
          simp [msgSet, MsgState.readOnly, MsgState.descr, hf]⟩
      | some fty =>
        cases m with
        | some mm =>
          cases fty with
          | scalarStr =>
            cases v with
            | str str =>
              exact Or.inr ⟨PMsg.mk (aupdate mm.fields name (.strF str)), by
                simp [msgSet, MsgState.readOnly, MsgState.descr,
                  MsgState.message, MsgState.cache, hf, ebind_ok, ebind_error]⟩
            | msgAcc a =>
              exact Or.inl ⟨.typeError "str field expects a str value", by
                simp [msgSet, MsgState.readOnly, MsgState.descr,
                  MsgState.message, MsgState.cache, hf, ebind_ok, ebind_error]⟩
            | other =>
              exact Or.inl ⟨.typeError "str field expects a str value", by
                simp [msgSet, MsgState.readOnly, MsgState.descr,
                  MsgState.message, MsgState.cache, hf, ebind_ok, ebind_error]⟩
          | structTy =>
            cases v <;>
              exact Or.inl ⟨.attributeError "Assignment not allowed to composite field", by
                simp [msgSet, MsgState.readOnly, MsgState.descr,
                  MsgState.message, MsgState.cache, hf, ebind_ok, ebind_error]⟩
          | listValueTy =>
            cases v <;>
              exact Or.inl ⟨.attributeError "Assignment not allowed to composite field", by
                simp [msgSet, MsgState.readOnly, MsgState.descr,
                  MsgState.message, MsgState.cache, hf, ebind_ok, ebind_error]⟩
          | mapTy vd2 =>
            cases v <;>
              exact Or.inl ⟨.attributeError "Assignment not allowed to composite field", by
                simp [msgSet, MsgState.readOnly, MsgState.descr,
                  MsgState.message, MsgState.cache, hf, ebind_ok, ebind_error]⟩
          | repTy d2 =>
            cases v <;>
              exact Or.inl ⟨.attributeError "Assignment not allowed to composite field", by
                simp [msgSet, MsgState.readOnly, MsgState.descr,
                  MsgState.message, MsgState.cache, hf, ebind_ok, ebind_error]⟩
          | msgTy d2 =>
            cases v <;>
              exact Or.inl ⟨.attributeError "Assignment not allowed to composite field", by
                simp [msgSet, MsgState.readOnly, MsgState.descr,
                  MsgState.message, MsgState.cache, hf, ebind_ok, ebind_error]⟩
        | none =>
          cases hb : mat with
          | error e =>
            exact Or.inl ⟨e, by
              simp [msgSet, MsgState.readOnly, MsgState.descr, MsgState.message,
                MsgState.cache, hf, hb, ebind_ok, ebind_error]⟩
          | ok b =>
            cases b with
            | msg mm =>
              cases fty with
              | scalarStr =>
                cases v with
                | str str =>
                  exact Or.inr ⟨PMsg.mk (aupdate mm.fields name (.strF str)), by
                    simp [msgSet, MsgState.readOnly, MsgState.descr,
                      MsgState.message, MsgState.cache, hf, hb, ebind_ok,
                      ebind_error]⟩
                | msgAcc a =>
                  exact Or.inl ⟨.typeError "str field expects a str value", by
                    simp [msgSet, MsgState.readOnly, MsgState.descr,
                      MsgState.message, MsgState.cache, hf, hb, ebind_ok,
                      ebind_error]⟩
                | other =>
                  exact Or.inl ⟨.typeError "str field expects a str value", by
                    simp [msgSet, MsgState.readOnly, MsgState.descr,
                      MsgState.message, MsgState.cache, hf, hb, ebind_ok,
                      ebind_error]⟩
              | structTy =>
                cases v <;>
                  exact Or.inl ⟨.attributeError "Assignment not allowed to composite field", by
                    simp [msgSet, MsgState.readOnly, MsgState.descr,
                      MsgState.message, MsgState.cache, hf, hb, ebind_ok,
                      ebind_error]⟩
              | listValueTy =>
                cases v <;>
                  exact Or.inl ⟨.attributeError "Assignment not allowed to composite field", by
                    simp [msgSet, MsgState.readOnly, MsgState.descr,
                      MsgState.message, MsgState.cache, hf, hb, ebind_ok,
                      ebind_error]⟩
              | mapTy vd2 =>
                cases v <;>
                  exact Or.inl ⟨.attributeError "Assignment not allowed to composite field", by
                    simp [msgSet, MsgState.readOnly, MsgState.descr,
                      MsgState.message, MsgState.cache, hf, hb, ebind_ok,
                      ebind_error]⟩
              | repTy d2 =>
                cases v <;>
                  exact Or.inl ⟨.attributeError "Assignment not allowed to composite field", by
                    simp [msgSet, MsgState.readOnly, MsgState.descr,
                      MsgState.message, MsgState.cache, hf, hb, ebind_ok,
                      ebind_error]⟩
              | msgTy d2 =>
                cases v <;>
                  exact Or.inl ⟨.attributeError "Assignment not allowed to composite field", by
                    simp [msgSet, MsgState.readOnly, MsgState.descr,
                      MsgState.message, MsgState.cache, hf, hb, ebind_ok,
                      ebind_error]⟩
            | rep l =>
              exact Or.inl ⟨.typeError "inconsistent parent container", by
                simp [msgSet, MsgState.readOnly, MsgState.descr, MsgState.message,
                  MsgState.cache, hf, hb, ebind_ok, ebind_error]⟩
            | mapb es =>
              exact Or.inl ⟨.typeError "inconsistent parent container", by
                simp [msgSet, MsgState.readOnly, MsgState.descr, MsgState.message,
                  MsgState.cache, hf, hb, ebind_ok, ebind_error]⟩
            | structb fs2 =>
              exact Or.inl ⟨.typeError "inconsistent parent container", by
                simp [msgSet, MsgState.readOnly, MsgState.descr, MsgState.message,
                  MsgState.cache, hf, hb, ebind_ok, ebind_error]⟩
            | listb vs2 =>
              exact Or.inl ⟨.typeError "inconsistent parent container", by
                simp [msgSet, MsgState.readOnly, MsgState.descr, MsgState.message,
                  MsgState.cache, hf, hb, ebind_ok, ebind_error]⟩
            | scalar st =>
              exact Or.inl ⟨.typeError "inconsistent parent container", by
                simp [msgSet, MsgState.readOnly, MsgState.descr, MsgState.message,
                  MsgState.cache, hf, hb, ebind_ok, ebind_error]⟩
    · exact Or.inl ⟨.attributeError (toString n), by
        simp [msgSet, MsgState.readOnly]⟩

theorem mapSet_errors (mat : Except Err Backing) :
    ∀ (fuel : Nat) (s : MapState) (k : PyKey) (v : MapVal),
      ∃ e, mapSet mat fuel s k v = .error e := by
  intro fuel
  induction fuel with
  | zero => exact fun s k v => ⟨.recursionError, rfl⟩
  | succ n ih =>
    intro s k v
    obtain ⟨vd, ms, ro, c⟩ := s
    cases ro with
    | true => exact ⟨.readOnly, rfl⟩
    | false =>
      cases ms with
      | some es =>
        exact ⟨.valueError "Direct assignment of submessage not allowed", rfl⟩
      | none =>
        cases hb : mat with
        | error e =>
          exact ⟨e, by simp [mapSet, MapState.readOnly, MapState.messages, hb,
            ebind_ok, ebind_error]⟩
        | ok b =>
          obtain ⟨e, he⟩ := ih (.mk vd none false c) (.s "_messages") (.backing b)
          rw [hb] at he
          exact ⟨e, by simp [mapSet, MapState.readOnly, MapState.messages, hb,
            ebind_ok, ebind_error, he]⟩

theorem repSet_errors (mat : Except Err Backing) (s : RepState) (k : PyKey)
    (v : MapVal) : ∃ e, repSet mat s k v = .error e := by
  obtain ⟨d, ms, ro, c⟩ := s
  cases ro with
  | true => exact ⟨.readOnly, rfl⟩
  | false =>
    cases ms with
    | some l =>
      rcases k with kk | n
      · exact ⟨.typeError "not supported between instances of str and int", rfl⟩
      · exact ⟨.typeError "does not support item assignment", rfl⟩
    | none =>
      cases hb : mat with
      | error e =>
        exact ⟨e, by simp [repSet, RepState.readOnly, RepState.messages, hb,
          ebind_ok, ebind_error]⟩
      | ok b =>
        cases b <;> rcases k with kk | n <;>
          simp [repSet, RepState.readOnly, RepState.messages, hb, ebind_ok,
            ebind_error, ethrow, epure]

theorem vSet_cases (pcc : VType → Except Err Container) (vs : Option Container)
    (t : VType) (ro : Bool) (c : List (PyKey × VRet)) (k : PyKey) (v : PyVal) :
    (∃ e, vSet pcc (.mk vs t ro c) k v = .error e) ∨
    (∃ vals t', vSet pcc (.mk vs t ro c) k v =
      .ok (.mk (some vals) t' ro (aerase c k))) := by
  cases ro with
  | true => exact Or.inl ⟨.readOnly, rfl⟩
  | false =>
    have hsimp := fun (x : Unit) => x
    clear hsimp
    rcases k with kk | n
    · cases t with
      | list => exact Or.inl ⟨.invalidKeyMap, rfl⟩
      | map =>
        cases vs with
        | some co =>
          cases co with
          | struct fs =>
            cases hcv : classifySet v with
            | error e =>
              exact Or.inl ⟨e, by simp [vSet, VState.readOnly, VState.type,
                VState.values, VState.cache, hcv, ebind_ok, ebind_error,
                ethrow, epure]⟩
            | ok pv =>
              exact Or.inr ⟨.struct (aupdate fs kk pv), .map, by
                simp [vSet, VState.readOnly, VState.type, VState.values,
                  VState.cache, hcv, ebind_ok, ebind_error, ethrow, epure]⟩
          | list l =>
            exact Or.inl ⟨.attributeError "fields", by
              simp [vSet, VState.readOnly, VState.type, VState.values,
                ebind_ok, ebind_error, ethrow, epure]⟩
        | none =>
          cases hp : pcc .map with
          | error e =>
            exact Or.inl ⟨e, by simp [vSet, VState.readOnly, VState.type,
              VState.values, hp, ebind_ok, ebind_error, ethrow, epure]⟩
          | ok co =>
            cases co with
            | struct fs =>
              cases hcv : classifySet v with
              | error e =>
                exact Or.inl ⟨e, by simp [vSet, VState.readOnly, VState.type,
                  VState.values, VState.cache, hp, hcv, ebind_ok, ebind_error,
                  ethrow, epure]⟩
              | ok pv =>
                exact Or.inr ⟨.struct (aupdate fs kk pv), .map, by
                  simp [vSet, VState.readOnly, VState.type, VState.values,
                    VState.cache, hp, hcv, ebind_ok, ebind_error, ethrow, epure]⟩
            | list l =>
              exact Or.inl ⟨.attributeError "fields", by
                simp [vSet, VState.readOnly, VState.type, VState.values, hp,
                  ebind_ok, ebind_error, ethrow, epure]⟩
      | unknown =>
        cases vs with
        | some co =>
          cases co with
          | struct fs =>
            cases hcv : classifySet v with
            | error e =>
              exact Or.inl ⟨e, by simp [vSet, VState.readOnly, VState.type,
                VState.values, VState.cache, hcv, ebind_ok, ebind_error,
                ethrow, epure]⟩
            | ok pv =>
              exact Or.inr ⟨.struct (aupdate fs kk pv), .map, by
                simp [vSet, VState.readOnly, VState.type, VState.values,
                  VState.cache, hcv, ebind_ok, ebind_error, ethrow, epure]⟩
          | list l =>
            exact Or.inl ⟨.attributeError "fields", by
              simp [vSet, VState.readOnly, VState.type, VState.values,
                ebind_ok, ebind_error, ethrow, epure]⟩
        | none =>
          cases hp : pcc .map with
          | error e =>
            exact Or.inl ⟨e, by simp [vSet, VState.readOnly, VState.type,
              VState.values, hp, ebind_ok, ebind_error, ethrow, epure]⟩
          | ok co =>
            cases co with
            | struct fs =>
              cases hcv : classifySet v with
              | error e =>
                exact Or.inl ⟨e, by simp [vSet, VState.readOnly, VState.type,
                  VState.values, VState.cache, hp, hcv, ebind_ok, ebind_error,
                  ethrow, epure]⟩
              | ok pv =>
                exact Or.inr ⟨.struct (aupdate fs kk pv), .map, by
                  simp [vSet, VState.readOnly, VState.type, VState.values,
                    VState.cache, hp, hcv, ebind_ok, ebind_error, ethrow, epure]⟩
            | list l =>
              exact Or.inl ⟨.attributeError "fields", by
                simp [vSet, VState.readOnly, VState.type, VState.values, hp,
                  ebind_ok, ebind_error, ethrow, epure]⟩
    · cases t with
      | map => exact Or.inl ⟨.invalidKeyList, rfl⟩
      | list =>
        cases vs with
        | some co =>
          cases co with
          | list l =>
            cases hcv : classifySet v with
            | error e =>
              exact Or.inl ⟨e, by simp [vSet, VState.readOnly, VState.type,
                VState.values, VState.cache, hcv, ebind_ok, ebind_error,
                ethrow, epure]⟩
            | ok pv =>
              exact Or.inr ⟨.list ((growTo l n).set n pv), .list, by
                simp [vSet, VState.readOnly, VState.type, VState.values,
                  VState.cache, hcv, ebind_ok, ebind_error, ethrow, epure]⟩
          | struct fs =>
            exact Or.inl ⟨.attributeError "values", by
              simp [vSet, VState.readOnly, VState.type, VState.values,
                ebind_ok, ebind_error, ethrow, epure]⟩
        | none =>
          cases hp : pcc .list with
          | error e =>
            exact Or.inl ⟨e, by simp [vSet, VState.readOnly, VState.type,
              VState.values, hp, ebind_ok, ebind_error, ethrow, epure]⟩
          | ok co =>
            cases co with
            | list l =>
              cases hcv : classifySet v with
              | error e =>
                exact Or.inl ⟨e, by simp [vSet, VState.readOnly, VState.type,
                  VState.values, VState.cache, hp, hcv, ebind_ok, ebind_error,
                  ethrow, epure]⟩
              | ok pv =>
                exact Or.inr ⟨.list ((growTo l n).set n pv), .list, by
                  simp [vSet, VState.readOnly, VState.type, VState.values,
                    VState.cache, hp, hcv, ebind_ok, ebind_error, ethrow, epure]⟩
            | struct fs =>
              exact Or.inl ⟨.attributeError "values", by
                simp [vSet, VState.readOnly, VState.type, VState.values, hp,
                  ebind_ok, ebind_error, ethrow, epure]⟩
      | unknown =>
        cases vs with
        | some co =>
          cases co with
          | list l =>
            cases hcv : classifySet v with
            | error e =>
              exact Or.inl ⟨e, by simp [vSet, VState.readOnly, VState.type,
                VState.values, VState.cache, hcv, ebind_ok, ebind_error,
                ethrow, epure]⟩
            | ok pv =>
              exact Or.inr ⟨.list ((growTo l n).set n pv), .list, by
                simp [vSet, VState.readOnly, VState.type, VState.values,
                  VState.cache, hcv, ebind_ok, ebind_error, ethrow, epure]⟩
          | struct fs =>
            exact Or.inl ⟨.attributeError "values", by
              simp [vSet, VState.readOnly, VState.type, VState.values,
                ebind_ok, ebind_error, ethrow, epure]⟩
        | none =>
          cases hp : pcc .list with
          | error e =>
            exact Or.inl ⟨e, by simp [vSet, VState.readOnly, VState.type,
              VState.values, hp, ebind_ok, ebind_error, ethrow, epure]⟩
          | ok co =>
            cases co with
            | list l =>
              cases hcv : classifySet v with
              | error e =>
                exact Or.inl ⟨e, by simp [vSet, VState.readOnly, VState.type,
                  VState.values, VState.cache, hp, hcv, ebind_ok, ebind_error,
                  ethrow, epure]⟩
              | ok pv =>
                exact Or.inr ⟨.list ((growTo l n).set n pv), .list, by
                  simp [vSet, VState.readOnly, VState.type, VState.values,
                    VState.cache, hp, hcv, ebind_ok, ebind_error, ethrow, epure]⟩
            | struct fs =>
              exact Or.inl ⟨.attributeError "values", by
                simp [vSet, VState.readOnly, VState.type, VState.values, hp,
                  ebind_ok, ebind_error, ethrow, epure]⟩

/-- C2: navigating `root.items` yields the repeated accessor over the
(empty, present) backing; `[0]` yields a child `Message` bound to an
absent element (falsy); but the first write through that child raises
`TypeError` from `getattr(root._message, 0)`, because line 304 wired the
child's lazy materialization to the RepeatedMessage's PARENT with the
integer index as attribute name, instead of to the RepeatedMessage
itself — the chain of lazy creation never runs and nothing is
materialized. -/
theorem c2_repeated_child_write_raises :
    msgGet rootAcc (.s "items") =
      .ok (.repA (.mk itemDescr (some []) false []),
           .mk rootDescr (some rootPMsg) false
             [(.s "items", .repA (.mk itemDescr (some []) false []))]) ∧
    repGet (.mk itemDescr (some []) false []) (.i 0) =
      .ok (.msgA c2item,
           .mk itemDescr (some []) false [(.i 0, .msgA c2item)]) ∧
    msgBool c2item = false ∧
    msgSet c2itemMat c2item (.s "name") (.str "x") =
      .error (.typeError "attribute name must be string") := by
  refine ⟨rfl, rfl, rfl, rfl⟩

/-- C3: typing commitment of a `Values` accessor.  On a fresh `Unknown`
accessor (no backing, empty cache) the first `get` or `set` with a text
key commits `MAP` typing and the first with an integer key commits
`LIST` typing (and succeeds); a `LIST`-committed accessor rejects text
keys with the `TypeMismatch` error (`Invalid key, must be a str for
maps`) on both `get` and `set`, and symmetrically a `MAP`-committed
accessor rejects integer keys. -/
theorem c3_typing_commitment :
    (∀ ro k, vGet (.mk none .unknown ro []) (.s k) =
      .ok (.child (.mk none .unknown ro []),
           .mk none .map ro [(.s k, .child (.mk none .unknown ro []))])) ∧
    (∀ ro n, vGet (.mk none .unknown ro []) (.i n) =
      .ok (.child (.mk none .unknown ro []),
           .mk none .list ro [(.i n, .child (.mk none .unknown ro []))])) ∧
    (∀ k, vSet (fun _ => .ok (.struct [])) (.mk none .unknown false [])
        (.s k) (.str "x") =
      .ok (.mk (some (.struct [(k, .strV "x")])) .map false [])) ∧
    (∀ n, vSet (fun _ => .ok (.list [])) (.mk none .unknown false [])
        (.i n) (.str "x") =
      .ok (.mk (some (.list ((growTo [] n).set n (.strV "x")))) .list false [])) ∧
    (∀ vs ro k, vGet (.mk vs .list ro []) (.s k) = .error .invalidKeyMap) ∧
    (∀ pcc vs ca k v, vSet pcc (.mk vs .list false ca) (.s k) v =
      .error .invalidKeyMap) ∧
    (∀ vs ro n, vGet (.mk vs .map ro []) (.i n) = .error .invalidKeyList) ∧
    (∀ pcc vs ca n v, vSet pcc (.mk vs .map false ca) (.i n) v =
      .error .invalidKeyList) := by
  refine ⟨fun _ _ => rfl, fun _ _ => rfl, fun _ => rfl, fun _ => rfl,
          fun _ _ _ => rfl, fun _ _ _ _ _ => rfl, fun _ _ _ => rfl,
          fun _ _ _ _ _ => rfl⟩

/-- C5: `RepeatedMessage.__delitem__` on any non-read-only accessor —
whatever the key and whether or not the backing sequence exists — raises
`AttributeError('_values')`, because line 382 reads the never-assigned
attribute `self._values` (the class has no `__getattr__` fallback).
Neither the specified `IndexOutOfRange` behaviour nor the specified
absent-backing no-op is reachable. -/
theorem c5_repeated_delete_attribute_error :
    ∀ d ms c k, repDel (.mk d ms false c) k = .error (.attributeError "_values") :=
  fun _ _ _ _ => rfl

/-- C6: `MapMessage.__delitem__` on a non-read-only accessor over a
message-valued map (the repository's `resources` shape) raises
`AttributeError('fields_by_name')` for every key and every backing
state, because line 279 reads `self._descriptor` — never stored by
`MapMessage.__init__` — which resolves through `__getattr__` to a live
map lookup, and `.fields_by_name` on the resulting `Message` child is
an unknown schema field.  Deletion never reaches the backing map. -/
theorem c6_map_delete_attribute_error :
    ∀ (ms : Option (List (String × PMsg))) (k : PyKey),
      mapDel (.mk resourceDescr ms false []) k =
        .error (.attributeError "fields_by_name") := by
  intro ms k
  cases ms <;> rfl

/-- C7: the reinitialize call with neither positional nor keyword
arguments does NOT commit an `Unknown` accessor to `MAP` typing: the
guard on lines 594-596 is inverted relative to every other branch, so
`UNKNOWN` stays `UNKNOWN` (and a `LIST` commitment is silently retyped
to `MAP`).  Consequences at concrete inputs: under a `Values` parent the
call fails with `ValueError('Unexpected type: ...')` because the parent's
`_create_child` receives the still-`UNKNOWN` typing (line 562); under a
`Message` parent (which ignores the typing) the call succeeds but leaves
the accessor `Unknown`-typed rather than `Map`-typed; and on a
`LIST`-committed accessor the call silently flips the typing to `MAP`
over the cleared list backing. -/
theorem c7_no_arg_call_leaves_unknown :
    vCall c7childPcc (.mk none .unknown false []) [] [] =
      .error .unexpectedType ∧
    vCall c7msgPcc (.mk none .unknown false []) [] [] =
      .ok (.mk (some (.struct [])) .unknown false []) ∧
    VType.unknown ≠ VType.map ∧
    vCall c7deadPcc (.mk (some (.list [.strV "a"])) .list false []) [] [] =
      .ok (.mk (some (.list [])) .map false []) := by
  refine ⟨rfl, rfl, by simp, rfl⟩

/-- C8: `RepeatedMessage` equality is order-sensitive as specified —
`[X, Y]` and `[Y, X]` compare unequal, `[X, Y]` and `[X, Y]` compare
equal — but comparing two `MapMessage` accessors raises
`AttributeError('full_name')` instead of computing key-set + per-key
equality, because line 223 reads the never-stored `self._descriptor`
(resolved through `__getattr__` as a live map lookup) and then
`.full_name` on the resulting child accessor, an unknown schema field. -/
theorem c8_map_eq_raises_rep_eq_order_sensitive :
    mapEqF 9 (.mk resourceDescr (some [("a", resA), ("b", resB)]) false [])
             (.mk resourceDescr (some [("b", resB), ("a", resA)]) false []) =
      .error (.attributeError "full_name") ∧
    repEqF 9 (.mk itemDescr (some [msgX, msgY]) false [])
             (.mk itemDescr (some [msgY, msgX]) false []) = .ok false ∧
    repEqF 9 (.mk itemDescr (some [msgX, msgY]) false [])
             (.mk itemDescr (some [msgX, msgY]) false []) = .ok true := by
  refine ⟨rfl, rfl, rfl⟩

/-- C9 counterexample: on a `LIST`-committed `Values` accessor over
`["a"]`, `delete(0)` does not set the element to the `Null` tag — it
calls `Value.Clear()`, leaving the slot with an UNSET kind (`unset ≠
nullV`), which a subsequent `get(0)` resolves to a fresh
`Unknown`-typed child accessor rather than to the host-neutral absence
value that a `Null` tag would produce. -/
theorem c9_counterexample :
    vDel (.mk (some (.list [.strV "a"])) .list false []) (.i 0) =
      .ok (.mk (some (.list [.unset])) .list false []) ∧
    PValue.unset ≠ PValue.nullV ∧
    vGet (.mk (some (.list [.unset])) .list false []) (.i 0) =
      .ok (.child (.mk none .unknown false []),
           .mk (some (.list [.unset])) .list false
             [(.i 0, .child (.mk none .unknown false []))]) ∧
    svToVRet false (some .nullV) = .pyNone := by
  refine ⟨rfl, by simp, rfl, rfl⟩

/-- C9 amended: `delete(i)` on a non-read-only `LIST`-committed `Values`
accessor with an in-range index clears the stored `Value` in place to
the UNSET state (not the `Null` tag), preserving the list length and
every other element's slot; `delete(k)` on a `MAP`-committed accessor
removes the key from the backing map entirely. -/
theorem c9_amended :
    (∀ (vs : List PValue) (n : Nat) ca, n < vs.length →
      vDel (.mk (some (.list vs)) .list false ca) (.i n) =
        .ok (.mk (some (.list (vs.set n .unset))) .list false
              (aerase ca (.i n))) ∧
      (vs.set n .unset).length = vs.length ∧
      (∀ m, m ≠ n → (vs.set n .unset)[m]? = vs[m]?)) ∧
    (∀ (fs : List (String × PValue)) kk ca,
      vDel (.mk (some (.struct fs)) .map false ca) (.s kk) =
        .ok (.mk (some (.struct (aerase fs kk))) .map false
              (aerase ca (.s kk))) ∧
      ((fs.map Prod.fst).Nodup → alookup (aerase fs kk) kk = none)) := by
  constructor
  · intro vs n ca h
    refine ⟨?_, by simp, ?_⟩
    · simp only [vDel, VState.readOnly, VState.type, VState.values, VState.cache]
      simp [h]
    · intro m hm
      exact List.getElem?_set_ne (by omega)
  · intro fs kk ca
    exact ⟨rfl, fun hnd => alookup_aerase_self fs kk hnd⟩

/-- C9 witness: the amended theorem applied at `["a"]`, index `0` and at
the one-entry map. -/
theorem c9_amended_witness :
    vDel (.mk (some (.list [.strV "a"])) .list false []) (.i 0) =
      .ok (.mk (some (.list (List.set [PValue.strV "a"] 0 PValue.unset)))
            .list false (aerase [] (.i 0))) ∧
    alookup (aerase [("k", PValue.nullV)] "k") "k" = none := by
  refine ⟨(c9_amended.1 [.strV "a"] 0 [] (by simp)).1,
          (c9_amended.2 [("k", .nullV)] "k" []).2 (by simp)⟩

/-- C10 counterexample: `Message.__contains__` tests schema-descriptor
membership (lines 80-81), so on an accessor whose backing store is
absent (falsy) the membership test of a declared field name returns
`True`, not `False` as the claim states for all four accessor kinds. -/
theorem c10_counterexample :
    msgBool (.mk rootDescr none false []) = false ∧
    msgContains (.mk rootDescr none false []) (.s "name") = true := by
  refine ⟨rfl, rfl⟩

/-- C10 amended: for `MapMessage`, `RepeatedMessage` and `Values`
accessors whose backing store is absent, the membership test returns
`False` for every key without raising, materializes nothing and (for
`Values` in the `Unknown` typing state) commits no typing — the
`__contains__` implementations return before any typing check and
perform no mutation (none of them returns a state).  `Message`'s
membership test, by contrast, is a schema test entirely independent of
the backing store. -/
theorem c10_amended :
    (∀ d ro c k, mapContains (.mk d none ro c) k = .ok false) ∧
    (∀ d ro c k, repContains (.mk d none ro c) k = false) ∧
    (∀ ty ro c k, vContains (.mk none ty ro c) k = .ok false) ∧
    (∀ d m ro c k, msgContains (.mk d m ro c) k =
      msgContains (.mk d none ro c) k) := by
  refine ⟨fun _ _ _ _ => rfl, fun _ _ _ _ => rfl, fun _ _ _ _ => rfl,
          fun _ _ _ _ k => by cases k <;> rfl⟩

/-- C1: read-only enforcement.  Every mutating operation of every
accessor kind (`set` by key, `delete` by key, and the reinitialize
call — plus `RepeatedMessage.append`) checks `self._read_only` as its
very first statement and raises the `ReadOnlyViolation` error
(`ValueError(f"... is read only")`) on an accessor whose flag is set,
for every backing state, every key and every value — and for every
parent callback, which shows the parent (and hence the rest of the
tree) is never contacted and nothing is mutated.  Moreover every child
accessor handed out by a `__getitem__` navigation is constructed with
the parent's own `_read_only` flag, for all four kinds, so the flag
reaches every derived accessor and no operation ever clears it. -/
theorem c1_read_only_enforcement :
    (∀ mat d m c k v, msgSet mat (.mk d m true c) k v = .error .readOnly) ∧
    (∀ d m c k, msgDel (.mk d m true c) k = .error .readOnly) ∧
    (∀ mat d m c kw, msgCall mat (.mk d m true c) kw = .error .readOnly) ∧
    (∀ mat fuel vd ms c k v,
      mapSet mat (fuel + 1) (.mk vd ms true c) k v = .error .readOnly) ∧
    (∀ vd ms c k, mapDel (.mk vd ms true c) k = .error .readOnly) ∧
    (∀ mat fuel vd ms c kw,
      mapCall mat fuel (.mk vd ms true c) kw = .error .readOnly) ∧
    (∀ mat d ms c k v, repSet mat (.mk d ms true c) k v = .error .readOnly) ∧
    (∀ d ms c k, repDel (.mk d ms true c) k = .error .readOnly) ∧
    (∀ mat d ms c args, repCall mat (.mk d ms true c) args = .error .readOnly) ∧
    (∀ mat d ms c a, repAppend mat (.mk d ms true c) a = .error .readOnly) ∧
    (∀ pcc vs t c k v, vSet pcc (.mk vs t true c) k v = .error .readOnly) ∧
    (∀ vs t c k, vDel (.mk vs t true c) k = .error .readOnly) ∧
    (∀ pcc vs t c args kwargs,
      vCall pcc (.mk vs t true c) args kwargs = .error .readOnly) ∧
    (∀ d m ro k, roPropagates (msgGet (.mk d m ro []) k) ro) ∧
    (∀ vd ms ro k, roPropagates (mapGet (.mk vd ms ro []) k) ro) ∧
    (∀ d ms ro k, roPropagates (repGet (.mk d ms ro []) k) ro) ∧
    (∀ vs t ro k, vroPropagates (vGet (.mk vs t ro []) k) ro) := by
  refine ⟨fun _ _ _ _ _ _ => rfl, fun _ _ _ _ => rfl, fun _ _ _ _ _ => rfl,
          fun _ _ _ _ _ _ _ => rfl, fun _ _ _ _ => rfl,
          fun _ _ _ _ _ _ => rfl, fun _ _ _ _ _ _ => rfl,
          fun _ _ _ _ => rfl, fun _ _ _ _ _ => rfl, fun _ _ _ _ _ => rfl,
          fun _ _ _ _ _ _ => rfl, fun _ _ _ _ => rfl,
          fun _ _ _ _ _ _ => rfl,
          msgGet_fresh_ro, mapGet_fresh_ro, repGet_fresh_ro, vGet_fresh_ro⟩

/-- C4: cache identity.  For each of the four accessor kinds, a
successful `get` followed by a second `get` with the same key (and no
intervening write) returns the very object stored in the child cache by
the first call, with the state unchanged — reference stability.  A
successful `set` leaves the cache exactly equal to the old cache with
(only) the written key's entry removed, and removing one key's entry
preserves the lookup of every other key; for `MapMessage` and
`RepeatedMessage` the `set` conjunct is vacuous, because the protobuf
containers reject item assignment before the invalidation line is
reached (see `mapSet`/`repSet`). -/
theorem c4_cache_identity :
    (∀ s k, match msgGet s k with
      | .ok (r, s') => msgGet s' k = .ok (r, s')
      | .error _ => True) ∧
    (∀ s k, match mapGet s k with
      | .ok (r, s') => mapGet s' k = .ok (r, s')
      | .error _ => True) ∧
    (∀ s k, match repGet s k with
      | .ok (r, s') => repGet s' k = .ok (r, s')
      | .error _ => True) ∧
    (∀ s k, match vGet s k with
      | .ok (r, s') => vGet s' k = .ok (r, s')
      | .error _ => True) ∧
    (∀ mat s k v, match msgSet mat s k v with
      | .ok s' => s'.cache = aerase s.cache k
      | .error _ => True) ∧
    (∀ mat fuel s k v, match mapSet mat fuel s k v with
      | .ok s' => s'.cache = aerase s.cache k
      | .error _ => True) ∧
    (∀ mat s k v, match repSet mat s k v with
      | .ok s' => s'.cache = aerase s.cache k
      | .error _ => True) ∧
    (∀ pcc s k v, match vSet pcc s k v with
      | .ok s' => s'.cache = aerase s.cache k
      | .error _ => True) ∧
    (∀ (c : List (PyKey × MRet)) (k k' : PyKey),
      k' = k ∨ alookup (aerase c k) k' = alookup c k') := by
  refine ⟨msgGet_idem, mapGet_idem, repGet_idem, vGet_idem, ?_, ?_, ?_, ?_, ?_⟩
  · intro mat s k v
    obtain ⟨d, m, ro, c⟩ := s
    rcases msgSet_cases mat d m ro c k v with ⟨e, h⟩ | ⟨m', h⟩
    · rw [h]
      trivial
    · rw [h]
      rfl
  · intro mat fuel s k v
    obtain ⟨e, he⟩ := mapSet_errors mat fuel s k v
    rw [he]
    trivial
  · intro mat s k v
    obtain ⟨e, he⟩ := repSet_errors mat s k v
    rw [he]
    trivial
  · intro pcc s k v
    obtain ⟨vs, t, ro, c⟩ := s
    rcases vSet_cases pcc vs t ro c k v with ⟨e, h⟩ | ⟨vals, t', h⟩
    · rw [h]
      trivial
    · rw [h]
      rfl
  · intro c k k'
    by_cases h : k' = k
    · exact Or.inl h
    · exact Or.inr (alookup_aerase_ne c k k' h)

end FnProtobuf
